import Mathlib

/-!
Verification development for the Curve-Maker piecewise-cubic-Bezier curve
editor (src/curvewidget.cpp, src/curvewidget.h, src/setcurvestatecommand.cpp).

The C++ engine works on `qreal` (double) coordinates.  The shallow embedding
below models coordinates as exact rationals (`ℚ`): all the arithmetic of the
engine is field arithmetic except for the square roots taken inside the
handle-alignment constraint code; those square roots are threaded through the
model as an explicit parameter `sq : ℚ → ℚ` (the results of every square root
are immediately clamped or multiplied, so the invariant-level theorems hold
for an arbitrary `sq`).  A second, real-valued embedding of the constraint
block (with the exact `Real.sqrt`) is used for the geometric claim about the
constraint engine.
-/

set_option maxRecDepth 16000

namespace CurveMaker

/-- Clamp a scalar into [0,1]; models `std::max(0.0, std::min(1.0, v))`. -/
def clamp01 (v : ℚ) : ℚ := max 0 (min 1 v)

/-- A 2-D point with rational coordinates; models `QPointF`. -/
structure Pt where
  x : ℚ
  y : ℚ
deriving DecidableEq, Repr

/-- Pointwise difference of two points; models `QPointF` subtraction. -/
def ptSub (a b : Pt) : Pt := ⟨a.x - b.x, a.y - b.y⟩

/-- Pointwise sum of two points; models `QPointF` addition. -/
def ptAdd (a b : Pt) : Pt := ⟨a.x + b.x, a.y + b.y⟩

/-- Dot product of two points; models `QPointF::dotProduct`. -/
def dotPP (a b : Pt) : ℚ := a.x * b.x + a.y * b.y

/-- Clamp both coordinates of a point into [0,1]. -/
def clampPt (p : Pt) : Pt := ⟨clamp01 p.x, clamp01 p.y⟩

/-- Linear interpolation between two points; models the file-local helper
`lerp(a, b, t) = a * (1.0 - t) + b * t` of curvewidget.cpp. -/
def lerp (a b : Pt) (t : ℚ) : Pt :=
  ⟨a.x * (1 - t) + b.x * t, a.y * (1 - t) + b.y * t⟩

/-- Result of a De Casteljau subdivision; models `SubdivisionResult`. -/
structure SubdivisionResult where
  pointOnCurve : Pt
  handle1_Seg1 : Pt
  handle2_Seg1 : Pt
  handle1_Seg2 : Pt
  handle2_Seg2 : Pt
deriving DecidableEq, Repr

/-- De Casteljau subdivision of a cubic Bezier segment at parameter `t`;
models `subdivideBezier` of curvewidget.cpp (lines 41-52). -/
def subdivideBezier (p0 p1 p2 p3 : Pt) (t : ℚ) : SubdivisionResult :=
  let p01 := lerp p0 p1 t
  let p12 := lerp p1 p2 t
  let p23 := lerp p2 p3 t
  let h2s1 := lerp p01 p12 t
  let h1s2 := lerp p12 p23 t
  { pointOnCurve := lerp h2s1 h1s2 t
    handle1_Seg1 := p01
    handle2_Seg1 := h2s1
    handle1_Seg2 := h1s2
    handle2_Seg2 := p23 }

/-- Cubic Bezier evaluation; models `evaluateBezier` of curvewidget.cpp
(lines 57-64): `p0*mt*mt2 + p1*3*mt2*t + p2*3*mt*t2 + p3*t*t2`. -/
def evaluateBezier (p0 p1 p2 p3 : Pt) (t : ℚ) : Pt :=
  let mt := 1 - t
  let mt2 := mt * mt
  let t2 := t * t
  ⟨p0.x * mt * mt2 + p1.x * 3 * mt2 * t + p2.x * 3 * mt * t2 + p3.x * t * t2,
   p0.y * mt * mt2 + p1.y * 3 * mt2 * t + p2.y * 3 * mt * t2 + p3.y * t * t2⟩

/-- Derivative of the Bezier x-component with respect to `t`; models
`evaluateBezierXDerivative` of curvewidget.cpp (lines 67-73). -/
def evaluateBezierXDerivative (p0 p1 p2 p3 : Pt) (t : ℚ) : ℚ :=
  let mt := 1 - t
  3 * mt * mt * (p1.x - p0.x) + 6 * mt * t * (p2.x - p1.x) +
    3 * t * t * (p3.x - p2.x)

theorem ptEqOfCoords {a b : Pt} (hx : a.x = b.x) (hy : a.y = b.y) : a = b := by
  cases a; cases b; cases hx; cases hy; rfl

/-- The De Casteljau point at `t` is the Bezier evaluation at `t`. -/
theorem subdivide_point_eq_eval (p0 p1 p2 p3 : Pt) (t : ℚ) :
    (subdivideBezier p0 p1 p2 p3 t).pointOnCurve = evaluateBezier p0 p1 p2 p3 t := by
  apply ptEqOfCoords <;>
    simp only [subdivideBezier, evaluateBezier, lerp] <;> ring

/-- C9: subdividing a cubic segment at `t` yields two segments whose
evaluations reparametrise the original curve: the left segment
`(p0, handle1_Seg1, handle2_Seg1, pointOnCurve)` at `u` equals the original
at `t*u`, and the right segment `(pointOnCurve, handle1_Seg2, handle2_Seg2, p3)`
at `u` equals the original at `t + (1-t)*u`.  Over exact rational arithmetic
the round trip is exact (hence within any floating tolerance). -/
theorem c9_subdivide_roundtrip (p0 p1 p2 p3 : Pt) (t u : ℚ) :
    evaluateBezier p0 (subdivideBezier p0 p1 p2 p3 t).handle1_Seg1
        (subdivideBezier p0 p1 p2 p3 t).handle2_Seg1
        (subdivideBezier p0 p1 p2 p3 t).pointOnCurve u
      = evaluateBezier p0 p1 p2 p3 (t * u) ∧
    evaluateBezier (subdivideBezier p0 p1 p2 p3 t).pointOnCurve
        (subdivideBezier p0 p1 p2 p3 t).handle1_Seg2
        (subdivideBezier p0 p1 p2 p3 t).handle2_Seg2 p3 u
      = evaluateBezier p0 p1 p2 p3 (t + (1 - t) * u) := by
  constructor <;> apply ptEqOfCoords <;>
    simp only [subdivideBezier, evaluateBezier, lerp] <;> ring

/-! ## Node and channel data model -/

/-- Handle alignment mode of a node; models `CurveWidget::HandleAlignment`. -/
inductive HandleAlignment where
  | Free
  | Aligned
  | Mirrored
deriving DecidableEq, Repr

/-- A curve node; models `CurveWidget::CurveNode`. -/
structure CurveNode where
  mainPoint : Pt
  handleIn : Pt
  handleOut : Pt
  alignment : HandleAlignment
deriving DecidableEq, Repr

/-- Default node value used to totalise list indexing (all C++ accesses the
model performs through it are guarded by the same bounds checks the source
performs, so the default is never observed). -/
def dNode : CurveNode := ⟨⟨0, 0⟩, ⟨0, 0⟩, ⟨0, 0⟩, HandleAlignment.Free⟩

/-- Channel identifiers; models `CurveWidget::ActiveChannel`. -/
inductive ActiveChannel where
  | RED
  | GREEN
  | BLUE
deriving DecidableEq, Repr

/-- The per-channel node store; models the
`QMap<ActiveChannel, QVector<CurveNode>>` member `m_channelNodes`.  A `none`
field models a key absent from the map. -/
structure ChannelMap where
  red : Option (List CurveNode)
  green : Option (List CurveNode)
  blue : Option (List CurveNode)
deriving DecidableEq, Repr

/-- Map lookup; models `m_channelNodes.find(channel)`. -/
def ChannelMap.get (m : ChannelMap) : ActiveChannel → Option (List CurveNode)
  | ActiveChannel.RED => m.red
  | ActiveChannel.GREEN => m.green
  | ActiveChannel.BLUE => m.blue

/-- Map update; models assignment through `m_channelNodes[channel]`. -/
def ChannelMap.set (m : ChannelMap) (c : ActiveChannel) (v : List CurveNode) :
    ChannelMap :=
  match c with
  | ActiveChannel.RED => { m with red := some v }
  | ActiveChannel.GREEN => { m with green := some v }
  | ActiveChannel.BLUE => { m with blue := some v }

/-- Qt's `qFuzzyCompare(double, double)`:
`qAbs(p1 - p2) * 1000000000000. <= qMin(qAbs(p1), qAbs(p2))`. -/
def qFuzzyCompare (a b : ℚ) : Prop :=
  |a - b| * 1000000000000 ≤ min |a| |b|

instance (a b : ℚ) : Decidable (qFuzzyCompare a b) :=
  inferInstanceAs (Decidable (_ ≤ _))

/-- Tolerance equality of nodes; models `CurveNode::operator==` of
curvewidget.cpp (lines 88-98), epsilon `1e-9` per coordinate. -/
def nodeFuzzyEq (a b : CurveNode) : Prop :=
  |a.mainPoint.x - b.mainPoint.x| < 1e-9 ∧ |a.mainPoint.y - b.mainPoint.y| < 1e-9 ∧
  |a.handleIn.x - b.handleIn.x| < 1e-9 ∧ |a.handleIn.y - b.handleIn.y| < 1e-9 ∧
  |a.handleOut.x - b.handleOut.x| < 1e-9 ∧ |a.handleOut.y - b.handleOut.y| < 1e-9 ∧
  a.alignment = b.alignment

instance (a b : CurveNode) : Decidable (nodeFuzzyEq a b) :=
  inferInstanceAs (Decidable (_ ∧ _))

/-- Element-wise tolerance equality of node vectors; models
`QVector<CurveNode>::operator==` (size equality plus element equality through
`CurveNode::operator==`). -/
def vecFuzzyEq : List CurveNode → List CurveNode → Prop
  | [], [] => True
  | a :: as, b :: bs => nodeFuzzyEq a b ∧ vecFuzzyEq as bs
  | _, _ => False

instance instDecVecFuzzyEq : (a b : List CurveNode) → Decidable (vecFuzzyEq a b)
  | [], [] => isTrue trivial
  | [], _ :: _ => isFalse id
  | _ :: _, [] => isFalse id
  | _ :: as, _ :: bs =>
    @instDecidableAnd _ _ _ (instDecVecFuzzyEq as bs)

/-- Tolerance equality of optional node vectors, used per map key. -/
def optVecFuzzyEq : Option (List CurveNode) → Option (List CurveNode) → Prop
  | Option.none, Option.none => True
  | some a, some b => vecFuzzyEq a b
  | _, _ => False

instance : (a b : Option (List CurveNode)) → Decidable (optVecFuzzyEq a b)
  | Option.none, Option.none => isTrue trivial
  | Option.none, some _ => isFalse id
  | some _, Option.none => isFalse id
  | some a, some b => inferInstanceAs (Decidable (vecFuzzyEq a b))

/-- The state-changed test of the source (`keys() != keys()` followed by a
per-key `QVector` comparison, e.g. curvewidget.cpp lines 369-375), negated:
the maps have the same key set and tolerance-equal vectors under every key. -/
def mapFuzzyEq (m1 m2 : ChannelMap) : Prop :=
  m1.red.isSome = m2.red.isSome ∧ m1.green.isSome = m2.green.isSome ∧
  m1.blue.isSome = m2.blue.isSome ∧
  optVecFuzzyEq m1.red m2.red ∧ optVecFuzzyEq m1.green m2.green ∧
  optVecFuzzyEq m1.blue m2.blue

instance (m1 m2 : ChannelMap) : Decidable (mapFuzzyEq m1 m2) :=
  inferInstanceAs (Decidable (_ ∧ _))

/-! ## The sampler (`CurveWidget::sampleCurveChannel`, lines 160-276) -/

/-- Outcome of the segment-locating scan inside `sampleCurveChannel`
(the `for` loop at lines 174-198): either the early return taken for a
fuzzy-vertical segment whose x fuzzy-matches the query (returning the left
node's y), or the bracketing pair of nodes, or no segment found. -/
inductive ScanOutcome where
  | earlyY (y : ℚ)
  | seg (n0 n1 : CurveNode)
  | noSeg
deriving DecidableEq, Repr

/-- The segment-locating scan of `sampleCurveChannel`: walk consecutive node
pairs, return the first pair whose anchor x-range brackets `x`; inside such a
pair, if the two anchor x's are fuzzy-equal and `x` fuzzy-matches the left
anchor's x, return the left anchor's y directly. -/
def segScan (x : ℚ) : List CurveNode → ScanOutcome
  | a :: b :: rest =>
    if a.mainPoint.x ≤ x ∧ x ≤ b.mainPoint.x then
      if qFuzzyCompare a.mainPoint.x b.mainPoint.x ∧ qFuzzyCompare x a.mainPoint.x then
        ScanOutcome.earlyY a.mainPoint.y
      else
        ScanOutcome.seg a b
    else
      segScan x (b :: rest)
  | _ => ScanOutcome.noSeg

/-- The Newton-Raphson loop of `sampleCurveChannel` (lines 240-267), with the
remaining iteration count as fuel (the source runs at most
`MAX_ITERATIONS = 15` iterations): stop when the x-error drops below `1e-7`,
stop with the current `t` when the derivative magnitude drops below `1e-7`,
otherwise take a Newton step and clamp `t` back into [0,1]. -/
def newtonIter (p0 p1 p2 p3 : Pt) (x : ℚ) : Nat → ℚ → ℚ
  | 0, t => t
  | fuel + 1, t =>
    let error := (evaluateBezier p0 p1 p2 p3 t).x - x
    if |error| < 1e-7 then t
    else
      let dXdt := evaluateBezierXDerivative p0 p1 p2 p3 t
      if |dXdt| < 1e-7 then t
      else newtonIter p0 p1 p2 p3 x fuel (clamp01 (t - error / dXdt))

/-- Last element of a node list with a default; models `nodes.last()`
(the default is never observed on the nonempty lists the code works with). -/
def lastD : List CurveNode → CurveNode → CurveNode
  | [], d => d
  | [a], _ => a
  | _ :: b :: rest, d => lastD (b :: rest) d

/-- The sampler; models `CurveWidget::sampleCurveChannel` (lines 160-276):
clamp `x` into [0,1]; if the channel is absent or has fewer than two nodes
return the clamped `x`; locate the bracketing segment; outside all anchors
return the first node's y (when `x` is at or left of it) or the last node's y;
on a numerically vertical segment (x-range of magnitude at most `1e-9`)
return the left node's y; otherwise solve `BezierX(t) = x` by Newton-Raphson
from the linear-interpolation initial guess, clamp `t`, and return the
Bezier y at `t` clamped into [0,1]. -/
def sampleCurveChannel (m : ChannelMap) (channel : ActiveChannel) (x0 : ℚ) : ℚ :=
  let x := clamp01 x0
  match m.get channel with
  | Option.none => x
  | some nodes =>
    if nodes.length < 2 then x
    else
      match segScan x nodes with
      | ScanOutcome.earlyY y => y
      | ScanOutcome.noSeg =>
        if x ≤ (nodes.headD dNode).mainPoint.x then (nodes.headD dNode).mainPoint.y
        else (lastD nodes dNode).mainPoint.y
      | ScanOutcome.seg n0 n1 =>
        let p0 := n0.mainPoint
        let p1 := n0.handleOut
        let p2 := n1.handleIn
        let p3 := n1.mainPoint
        let segmentXRange := p3.x - p0.x
        if |segmentXRange| > 1e-9 then
          let tGuess := clamp01 ((x - p0.x) / segmentXRange)
          let t := clamp01 (newtonIter p0 p1 p2 p3 x 15 tGuess)
          clamp01 ((evaluateBezier p0 p1 p2 p3 t).y)
        else
          p0.y

/-- Ascending sortedness of a node list by anchor x (the invariant the source
relies on: "nodes MUST be sorted by mainPoint.x()", curvewidget.cpp line 176). -/
def xSorted : List CurveNode → Prop
  | a :: b :: rest => a.mainPoint.x ≤ b.mainPoint.x ∧ xSorted (b :: rest)
  | _ => True

instance instDecXSorted : (l : List CurveNode) → Decidable (xSorted l)
  | [] => isTrue trivial
  | [_] => isTrue trivial
  | _ :: b :: rest => @instDecidableAnd _ _ _ (instDecXSorted (b :: rest))

/-- Node 0 of the default curve built by the `CurveWidget` constructor
(lines 113-127): anchor (0,0), coincident `handleIn`, `handleOut` at the
first third, `Free`. -/
def defaultNode0 : CurveNode := ⟨⟨0, 0⟩, ⟨0, 0⟩, ⟨1/3, 0⟩, HandleAlignment.Free⟩

/-- Node 1 of the default curve: anchor (1,1), `handleIn` at the second
third, coincident `handleOut`, `Free`. -/
def defaultNode1 : CurveNode := ⟨⟨1, 1⟩, ⟨2/3, 1⟩, ⟨1, 1⟩, HandleAlignment.Free⟩

/-- The two-node default channel. -/
def defaultNodes : List CurveNode := [defaultNode0, defaultNode1]

/-- The constructor's channel map: all three channels hold the default curve. -/
def initialChannels : ChannelMap := ⟨some defaultNodes, some defaultNodes, some defaultNodes⟩

theorem clamp01_nonneg (v : ℚ) : 0 ≤ clamp01 v := le_max_left 0 _

theorem clamp01_le_one (v : ℚ) : clamp01 v ≤ 1 :=
  max_le (by norm_num) (min_le_left 1 v)

theorem clamp01_eq_self {v : ℚ} (h0 : 0 ≤ v) (h1 : v ≤ 1) : clamp01 v = v := by
  unfold clamp01
  rw [min_eq_right h1, max_eq_right h0]

/-- The scan's early return means: some consecutive anchor pair brackets `x`,
the pair's anchor x's are fuzzy-equal, `x` fuzzy-matches the left anchor's x,
and the returned value is the left anchor's y. -/
theorem segScan_earlyY_spec :
    ∀ (l : List CurveNode) (x y : ℚ), segScan x l = ScanOutcome.earlyY y →
      ∃ i n0 n1, l[i]? = some n0 ∧ l[i + 1]? = some n1 ∧
        n0.mainPoint.x ≤ x ∧ x ≤ n1.mainPoint.x ∧
        qFuzzyCompare n0.mainPoint.x n1.mainPoint.x ∧
        qFuzzyCompare x n0.mainPoint.x ∧ y = n0.mainPoint.y
  | [], x, y => by intro h; simp [segScan] at h
  | [a], x, y => by intro h; simp [segScan] at h
  | a :: b :: rest, x, y => by
    intro h
    rw [segScan] at h
    split at h
    · split at h
      · rename_i hbr hfz
        cases h
        exact ⟨0, a, b, rfl, by simp, hbr.1, hbr.2, hfz.1, hfz.2, rfl⟩
      · cases h
    · obtain ⟨i, n0, n1, h0, h1, hrest⟩ := segScan_earlyY_spec (b :: rest) x y h
      exact ⟨i + 1, n0, n1, by simpa using h0, by simpa using h1, hrest⟩

/-- The scan's segment result is a consecutive bracketing anchor pair. -/
theorem segScan_seg_spec :
    ∀ (l : List CurveNode) (x : ℚ) (n0 n1 : CurveNode),
      segScan x l = ScanOutcome.seg n0 n1 →
      ∃ i, l[i]? = some n0 ∧ l[i + 1]? = some n1 ∧
        n0.mainPoint.x ≤ x ∧ x ≤ n1.mainPoint.x
  | [], x, n0, n1 => by intro h; simp [segScan] at h
  | [a], x, n0, n1 => by intro h; simp [segScan] at h
  | a :: b :: rest, x, n0, n1 => by
    intro h
    rw [segScan] at h
    split at h
    · split at h
      · cases h
      · rename_i hbr _
        cases h
        exact ⟨0, rfl, by simp, hbr.1, hbr.2⟩
    · obtain ⟨i, h0, h1, hrest⟩ := segScan_seg_spec (b :: rest) x n0 n1 h
      exact ⟨i + 1, by simpa using h0, by simpa using h1, hrest⟩

/-- If the scan found nothing and the list is sorted, a query strictly right
of the first anchor is strictly right of the last anchor. -/
theorem segScan_noSeg_gt_last :
    ∀ (l : List CurveNode) (x : ℚ) (d : CurveNode),
      xSorted l → segScan x l = ScanOutcome.noSeg →
      (l.headD d).mainPoint.x < x → (lastD l d).mainPoint.x < x
  | [], x, d => by intro _ _ h; simpa using h
  | [a], x, d => by intro _ _ h; simpa [lastD] using h
  | a :: b :: rest, x, d => by
    intro hs h hlt
    rw [segScan] at h
    split at h
    · split at h <;> cases h
    · rename_i hnbr
      have hbx : b.mainPoint.x < x := by
        by_contra hc
        push_neg at hc
        exact hnbr ⟨le_of_lt hlt, hc⟩
      have htail := segScan_noSeg_gt_last (b :: rest) x d hs.2 h (by simpa using hbx)
      simpa [lastD] using htail

/-- In a sorted list the first anchor's x is at most the last anchor's x. -/
theorem xSorted_head_le_last :
    ∀ (l : List CurveNode) (d : CurveNode), xSorted l →
      (l.headD d).mainPoint.x ≤ (lastD l d).mainPoint.x
  | [], d => by intro _; exact le_refl _
  | [a], d => by intro _; simp [lastD]
  | a :: b :: rest, d => by
    intro hs
    have htail := xSorted_head_le_last (b :: rest) d hs.2
    calc a.mainPoint.x ≤ b.mainPoint.x := hs.1
      _ ≤ (lastD (b :: rest) d).mainPoint.x := by simpa using htail
      _ = (lastD (a :: b :: rest) d).mainPoint.x := by simp [lastD]

/-- A nonempty list contains its `headD`. -/
theorem headD_mem : ∀ (l : List CurveNode) (d : CurveNode), l ≠ [] →
    l.headD d ∈ l
  | [], _ => by intro h; exact absurd rfl h
  | a :: t, d => by intro _; simp

/-- A nonempty list contains its `lastD`. -/
theorem lastD_mem : ∀ (l : List CurveNode) (d : CurveNode), l ≠ [] →
    lastD l d ∈ l
  | [], _ => by intro h; exact absurd rfl h
  | [a], d => by intro _; simp [lastD]
  | a :: b :: rest, d => by
    intro _
    have := lastD_mem (b :: rest) d (by simp)
    rw [lastD]
    exact List.mem_cons_of_mem a this

/-- C2: on a channel with at least two nodes, for `x` (already in [0,1])
falling in a bracketing segment whose anchor x-range exceeds the `1e-9`
vertical threshold, the sampler solves `BezierX(t) = x` by the
Newton-Raphson loop: initial guess `(x - p0.x)/(p3.x - p0.x)` clamped into
[0,1], at most 15 iterations, stopping when `|BezierX(t) - x| < 1e-7`,
stopping with the last computed `t` when `|dX/dt| < 1e-7`, each Newton step
re-clamping `t` into [0,1]; it returns `BezierY(t)` clamped into [0,1]. -/
theorem c2_newton_sampling (m : ChannelMap) (channel : ActiveChannel)
    (x : ℚ) (nodes : List CurveNode) (n0 n1 : CurveNode)
    (hm : m.get channel = some nodes) (hlen : 2 ≤ nodes.length)
    (hx0 : 0 ≤ x) (hx1 : x ≤ 1)
    (hseg : segScan x nodes = ScanOutcome.seg n0 n1)
    (hvert : 1e-9 < |n1.mainPoint.x - n0.mainPoint.x|) :
    sampleCurveChannel m channel x
      = clamp01 ((evaluateBezier n0.mainPoint n0.handleOut n1.handleIn n1.mainPoint
          (clamp01 (newtonIter n0.mainPoint n0.handleOut n1.handleIn n1.mainPoint x 15
            (clamp01 ((x - n0.mainPoint.x) / (n1.mainPoint.x - n0.mainPoint.x)))))).y) ∧
    (∀ (fuel : Nat) (t : ℚ),
        |(evaluateBezier n0.mainPoint n0.handleOut n1.handleIn n1.mainPoint t).x - x| < 1e-7 →
        newtonIter n0.mainPoint n0.handleOut n1.handleIn n1.mainPoint x (fuel + 1) t = t) ∧
    (∀ (fuel : Nat) (t : ℚ),
        ¬ |(evaluateBezier n0.mainPoint n0.handleOut n1.handleIn n1.mainPoint t).x - x| < 1e-7 →
        |evaluateBezierXDerivative n0.mainPoint n0.handleOut n1.handleIn n1.mainPoint t| < 1e-7 →
        newtonIter n0.mainPoint n0.handleOut n1.handleIn n1.mainPoint x (fuel + 1) t = t) ∧
    (∀ (fuel : Nat) (t : ℚ),
        ¬ |(evaluateBezier n0.mainPoint n0.handleOut n1.handleIn n1.mainPoint t).x - x| < 1e-7 →
        ¬ |evaluateBezierXDerivative n0.mainPoint n0.handleOut n1.handleIn n1.mainPoint t| < 1e-7 →
        newtonIter n0.mainPoint n0.handleOut n1.handleIn n1.mainPoint x (fuel + 1) t
          = newtonIter n0.mainPoint n0.handleOut n1.handleIn n1.mainPoint x fuel
              (clamp01 (t - ((evaluateBezier n0.mainPoint n0.handleOut n1.handleIn n1.mainPoint t).x - x)
                / evaluateBezierXDerivative n0.mainPoint n0.handleOut n1.handleIn n1.mainPoint t))) := by
  refine ⟨?_, ?_, ?_, ?_⟩
  · unfold sampleCurveChannel
    rw [clamp01_eq_self hx0 hx1, hm]
    simp only [Nat.not_lt.mpr hlen, if_false, hseg]
    rw [if_pos hvert]
  · intro fuel t h
    simp only [newtonIter]
    rw [if_pos h]
  · intro fuel t h1 h2
    simp only [newtonIter]
    rw [if_neg h1, if_pos h2]
  · intro fuel t h1 h2
    simp only [newtonIter]
    rw [if_neg h1, if_neg h2]

/-- Witness for C2 at a concrete input: the default straight-line red channel
sampled at x = 1/2 goes through the Newton branch and yields 1/2. -/
theorem c2_newton_sampling_witness :
    segScan (1/2) defaultNodes = ScanOutcome.seg defaultNode0 defaultNode1 ∧
    sampleCurveChannel initialChannels ActiveChannel.RED (1/2) = 1/2 := by
  constructor
  · with_unfolding_all decide
  · have h := c2_newton_sampling initialChannels ActiveChannel.RED (1/2)
      defaultNodes defaultNode0 defaultNode1 rfl (by decide) (by norm_num)
      (by norm_num) (by with_unfolding_all decide) (by with_unfolding_all decide)
    rw [h.1]
    with_unfolding_all decide

/-- C4: the sampler recovers degenerate input locally: an absent or
fewer-than-2-node channel returns the clamped input x; a bracketing segment
whose anchors share the same x within tolerance (either fuzzy-equal anchors
with x fuzzy-matching the left anchor, or an x-range of magnitude at most
1e-9) returns the left node's y; a query outside all anchors (sorted
channel) returns the nearest endpoint's y; and whenever all anchor y's lie
in [0,1] the result lies in [0,1]. -/
theorem c4_degenerate_recovery (m : ChannelMap) (channel : ActiveChannel) (x : ℚ) :
    ((m.get channel = Option.none ∨
        (∃ nodes, m.get channel = some nodes ∧ nodes.length < 2)) →
      sampleCurveChannel m channel x = clamp01 x) ∧
    (∀ nodes y, m.get channel = some nodes → 2 ≤ nodes.length →
      segScan (clamp01 x) nodes = ScanOutcome.earlyY y →
      sampleCurveChannel m channel x = y ∧
      ∃ i n0 n1, nodes[i]? = some n0 ∧ nodes[i + 1]? = some n1 ∧
        qFuzzyCompare n0.mainPoint.x n1.mainPoint.x ∧ y = n0.mainPoint.y) ∧
    (∀ nodes n0 n1, m.get channel = some nodes → 2 ≤ nodes.length →
      segScan (clamp01 x) nodes = ScanOutcome.seg n0 n1 →
      |n1.mainPoint.x - n0.mainPoint.x| ≤ 1e-9 →
      sampleCurveChannel m channel x = n0.mainPoint.y) ∧
    (∀ nodes, m.get channel = some nodes → 2 ≤ nodes.length → xSorted nodes →
      segScan (clamp01 x) nodes = ScanOutcome.noSeg →
      (clamp01 x ≤ (nodes.headD dNode).mainPoint.x ∧
        sampleCurveChannel m channel x = (nodes.headD dNode).mainPoint.y ∧
        |clamp01 x - (nodes.headD dNode).mainPoint.x|
          ≤ |clamp01 x - (lastD nodes dNode).mainPoint.x|) ∨
      ((lastD nodes dNode).mainPoint.x < clamp01 x ∧
        sampleCurveChannel m channel x = (lastD nodes dNode).mainPoint.y ∧
        |clamp01 x - (lastD nodes dNode).mainPoint.x|
          ≤ |clamp01 x - (nodes.headD dNode).mainPoint.x|)) ∧
    ((∀ nodes, m.get channel = some nodes → ∀ n ∈ nodes,
        0 ≤ n.mainPoint.y ∧ n.mainPoint.y ≤ 1) →
      0 ≤ sampleCurveChannel m channel x ∧ sampleCurveChannel m channel x ≤ 1) := by
  refine ⟨?_, ?_, ?_, ?_, ?_⟩
  · rintro (hm | ⟨nodes, hm, hlen⟩)
    · unfold sampleCurveChannel
      rw [hm]
    · unfold sampleCurveChannel
      rw [hm]
      simp only [hlen, if_true]
  · intro nodes y hm hlen hscan
    constructor
    · unfold sampleCurveChannel
      rw [hm]
      simp only [Nat.not_lt.mpr hlen, if_false, hscan]
    · obtain ⟨i, n0, n1, h0, h1, _, _, hfz, _, hy⟩ :=
        segScan_earlyY_spec nodes (clamp01 x) y hscan
      exact ⟨i, n0, n1, h0, h1, hfz, hy⟩
  · intro nodes n0 n1 hm hlen hscan hvert
    unfold sampleCurveChannel
    rw [hm]
    simp only [Nat.not_lt.mpr hlen, if_false, hscan]
    rw [if_neg (by simpa using hvert)]
  · intro nodes hm hlen hsort hscan
    have hne : nodes ≠ [] := by
      intro h
      rw [h] at hlen
      simp at hlen
    have hsample : sampleCurveChannel m channel x =
        (if clamp01 x ≤ (nodes.headD dNode).mainPoint.x
          then (nodes.headD dNode).mainPoint.y
          else (lastD nodes dNode).mainPoint.y) := by
      unfold sampleCurveChannel
      rw [hm]
      simp only [Nat.not_lt.mpr hlen, if_false, hscan]
    have hhl := xSorted_head_le_last nodes dNode hsort
    by_cases hle : clamp01 x ≤ (nodes.headD dNode).mainPoint.x
    · left
      refine ⟨hle, by rw [hsample, if_pos hle], ?_⟩
      rw [abs_sub_comm (clamp01 x) ((nodes.headD dNode).mainPoint.x),
        abs_sub_comm (clamp01 x) ((lastD nodes dNode).mainPoint.x),
        abs_of_nonneg (by linarith), abs_of_nonneg (by linarith)]
      linarith
    · right
      push_neg at hle
      have hgt := segScan_noSeg_gt_last nodes (clamp01 x) dNode hsort hscan hle
      refine ⟨hgt, by rw [hsample, if_neg (not_le.mpr hle)], ?_⟩
      rw [abs_of_nonneg (by linarith), abs_of_nonneg (by linarith)]
      linarith
  · intro hy
    have hcl : 0 ≤ clamp01 x ∧ clamp01 x ≤ 1 := ⟨clamp01_nonneg x, clamp01_le_one x⟩
    unfold sampleCurveChannel
    cases hm : m.get channel with
    | none => exact hcl
    | some nodes =>
      by_cases hlen : nodes.length < 2
      · simp only [hlen, if_true]
        exact hcl
      · simp only [hlen, if_false]
        have hne : nodes ≠ [] := by
          intro h
          rw [h] at hlen
          exact hlen (by simp)
        cases hscan : segScan (clamp01 x) nodes with
        | earlyY y =>
          dsimp only
          obtain ⟨i, n0, n1, h0, _, _, _, _, _, hyv⟩ :=
            segScan_earlyY_spec nodes (clamp01 x) y hscan
          have hn0 : n0 ∈ nodes := List.getElem?_mem h0
          rw [hyv]
          exact hy nodes hm n0 hn0
        | noSeg =>
          dsimp only
          by_cases hle : clamp01 x ≤ (nodes.headD dNode).mainPoint.x
          · rw [if_pos hle]
            exact hy nodes hm _ (headD_mem nodes dNode hne)
          · rw [if_neg hle]
            exact hy nodes hm _ (lastD_mem nodes dNode hne)
        | seg n0 n1 =>
          dsimp only
          by_cases hv : |n1.mainPoint.x - n0.mainPoint.x| > 1e-9
          · rw [if_pos hv]
            exact ⟨clamp01_nonneg _, clamp01_le_one _⟩
          · rw [if_neg hv]
            obtain ⟨i, h0, _, _, _⟩ := segScan_seg_spec nodes (clamp01 x) n0 n1 hscan
            exact hy nodes hm n0 (List.getElem?_mem h0)

/-- Map used by the C4 witness: the green channel is absent. -/
def c4WitnessMap : ChannelMap := ⟨some defaultNodes, Option.none, some defaultNodes⟩

/-- Witness for C4 at concrete inputs: sampling an absent channel returns the
input x clamped into [0,1]. -/
theorem c4_degenerate_recovery_witness :
    sampleCurveChannel c4WitnessMap ActiveChannel.GREEN (3/4) = clamp01 (3/4) ∧
    clamp01 (3/4) = 3/4 := by
  constructor
  · exact (c4_degenerate_recovery c4WitnessMap ActiveChannel.GREEN (3/4)).1 (Or.inl rfl)
  · with_unfolding_all decide

/-! ## Widget state and edit operations

The interaction state of `CurveWidget` that the claims touch: the channel
map, the active channel, the current selection, the dragging flag and the
undo stack.  `SetCurveStateCommand` stores value copies of the whole channel
map before and after an action.  The square roots taken by the alignment
constraint code are threaded as the parameter `sq : ℚ → ℚ`. -/

/-- Which part of a node is selected; models `CurveWidget::SelectedPart`. -/
inductive SelectedPart where
  | NONE
  | MAIN_POINT
  | HANDLE_IN
  | HANDLE_OUT
deriving DecidableEq, Repr

/-- Selection state; models `CurveWidget::SelectionInfo` (nodeIndex is a C++
`int`, hence modelled as `Int`: -1 denotes "none"). -/
structure SelectionInfo where
  part : SelectedPart
  nodeIndex : Int
deriving DecidableEq, Repr

/-- An undo command; models `SetCurveStateCommand`, which copies the full
old and new channel maps (setcurvestatecommand.cpp lines 8-22). -/
structure Command where
  oldState : ChannelMap
  newState : ChannelMap
deriving DecidableEq, Repr

/-- The widget state relevant to the claims. -/
structure WidgetState where
  channels : ChannelMap
  activeChannel : ActiveChannel
  selection : SelectionInfo
  dragging : Bool
  undoStack : List Command
deriving DecidableEq, Repr

/-- Models `CurveWidget::restoreAllChannelNodes` (lines 1029-1062): replace the
entire channel map, clear the selection and stop dragging. -/
def restoreAllChannelNodes (s : WidgetState) (allNodes : ChannelMap) : WidgetState :=
  { s with channels := allNodes
           selection := ⟨SelectedPart.NONE, -1⟩
           dragging := false }

/-- Models `SetCurveStateCommand::undo` (setcurvestatecommand.cpp lines 27-38):
restore the stored old channel map. -/
def commandUndo (c : Command) (s : WidgetState) : WidgetState :=
  restoreAllChannelNodes s c.oldState

/-- Models `SetCurveStateCommand::redo` (setcurvestatecommand.cpp lines 43-55):
restore the stored new channel map. -/
def commandRedo (c : Command) (s : WidgetState) : WidgetState :=
  restoreAllChannelNodes s c.newState

/-- The `newInPos` computation of `CurveWidget::applyAlignmentSnap`
(lines 1111-1137): place `handleIn` on the ray opposite `handleOut` from the
anchor, at its previous length for `Aligned` and at `handleOut`'s length for
`Mirrored`; if `handleOut` coincides with the anchor (squared length below
`1e-12`), place it on the anchor. -/
def snapInTarget (sq : ℚ → ℚ) (node : CurveNode) : Pt :=
  let vecOut := ptSub node.handleOut node.mainPoint
  let lenOutSq := dotPP vecOut vecOut
  if lenOutSq < 1e-12 then node.mainPoint
  else
    let lenOut := sq lenOutSq
    let normDirIn : Pt := ⟨-vecOut.x / lenOut, -vecOut.y / lenOut⟩
    if node.alignment = HandleAlignment.Aligned then
      let vecInOld := ptSub node.handleIn node.mainPoint
      let lenInOld := sq (dotPP vecInOld vecInOld)
      ⟨node.mainPoint.x + normDirIn.x * lenInOld, node.mainPoint.y + normDirIn.y * lenInOld⟩
    else
      ⟨node.mainPoint.x + normDirIn.x * lenOut, node.mainPoint.y + normDirIn.y * lenOut⟩

/-- Models `CurveWidget::applyAlignmentSnap` (lines 1101-1142): only an interior
node with `Aligned` or `Mirrored` alignment is changed, and only its
`handleIn`, which is set to the snap target clamped into the unit square. -/
def applyAlignmentSnap (sq : ℚ → ℚ) (nodes : List CurveNode) (nodeIndex : Nat) :
    List CurveNode :=
  if nodeIndex = 0 ∨ nodeIndex + 1 ≥ nodes.length then nodes
  else
    let node := nodes.getD nodeIndex dNode
    if node.alignment = HandleAlignment.Aligned ∨
        node.alignment = HandleAlignment.Mirrored then
      nodes.set nodeIndex { node with handleIn := clampPt (snapInTarget sq node) }
    else nodes

/-- State-level wrapper of `applyAlignmentSnap`: the member function mutates
the active channel's node vector in place. -/
def applyAlignmentSnapState (sq : ℚ → ℚ) (s : WidgetState) (nodeIndex : Nat) :
    WidgetState :=
  match s.channels.get s.activeChannel with
  | Option.none => s
  | some nodes =>
    { s with channels := s.channels.set s.activeChannel (applyAlignmentSnap sq nodes nodeIndex) }

/-- Models `CurveWidget::setNodeAlignment` (lines 349-388): bounds-check the index
against the active channel, do nothing if the mode is unchanged, otherwise
set the mode, apply the alignment snap, and push a `SetCurveStateCommand`
carrying the full before/after channel maps unless the tolerance comparison
finds no effective change.  (The C++ throws on a missing active channel; that
situation is unreachable and modelled as a no-op.) -/
def setNodeAlignment (sq : ℚ → ℚ) (s : WidgetState) (nodeIndex : Int)
    (mode : HandleAlignment) : WidgetState :=
  match s.channels.get s.activeChannel with
  | Option.none => s
  | some nodes =>
    if nodeIndex < 0 ∨ nodeIndex ≥ (nodes.length : Int) then s
    else
      let idx := nodeIndex.toNat
      let node := nodes.getD idx dNode
      if node.alignment = mode then s
      else
        let before := s.channels
        let nodes1 := nodes.set idx { node with alignment := mode }
        let nodes2 := applyAlignmentSnap sq nodes1 idx
        let after := s.channels.set s.activeChannel nodes2
        if mapFuzzyEq before after then { s with channels := after }
        else { s with channels := after, undoStack := ⟨before, after⟩ :: s.undoStack }

/-- The opposite-handle constraint of `CurveWidget::mouseMoveEvent`
(lines 782-807), rational version with explicit square root `sq`: if the
moved handle coincides with the anchor (squared length below `1e-12`) the
opposite handle goes to the anchor; otherwise it goes on the opposite ray,
at its previous length for `Aligned` and at the moved handle's length for
`Mirrored`; the result is clamped into the unit square. -/
def constrainOppositeQ (sq : ℚ → ℚ) (align : HandleAlignment) (mainPt moved oppOld : Pt) :
    Pt :=
  let vecMoved := ptSub moved mainPt
  let lenMovedSq := dotPP vecMoved vecMoved
  let newPos :=
    if lenMovedSq < 1e-12 then mainPt
    else
      let lenMoved := sq lenMovedSq
      let normDirOpposite : Pt := ⟨-vecMoved.x / lenMoved, -vecMoved.y / lenMoved⟩
      if align = HandleAlignment.Aligned then
        let vecOppositeOld := ptSub oppOld mainPt
        let lenOppositeOld := sq (dotPP vecOppositeOld vecOppositeOld)
        ⟨mainPt.x + normDirOpposite.x * lenOppositeOld,
         mainPt.y + normDirOpposite.y * lenOppositeOld⟩
      else
        ⟨mainPt.x + normDirOpposite.x * lenMoved,
         mainPt.y + normDirOpposite.y * lenMoved⟩
  clampPt newPos

/-- Models `CurveWidget::sortActiveNodes` (lines 1071-1094): keep the stored first
and last nodes in place (forcing their anchor x to 0 and 1), sort the
interior nodes by anchor x. -/
def sortActiveNodes (nodes : List CurveNode) : List CurveNode :=
  if nodes.length ≤ 1 then nodes
  else
    let firstNode := nodes.headD dNode
    let lastNode := lastD nodes dNode
    let middle := (nodes.drop 1).dropLast
    let sortedMiddle := middle.mergeSort (fun a b => a.mainPoint.x ≤ b.mainPoint.x)
    ({ firstNode with mainPoint := { firstNode.mainPoint with x := 0 } } :: sortedMiddle)
      ++ [{ lastNode with mainPoint := { lastNode.mainPoint with x := 1 } }]

/-- The fuzzy re-find loop after a resort in `mouseMoveEvent`
(lines 822-832): first index whose anchor fuzzy-matches the dragged
node's position. -/
def findFuzzyIndex (target : Pt) : List CurveNode → Option Nat
  | [] => Option.none
  | n :: rest =>
    if qFuzzyCompare n.mainPoint.x target.x ∧ qFuzzyCompare n.mainPoint.y target.y then
      some 0
    else (findFuzzyIndex target rest).map (· + 1)

/-- The neighbour-clamp epsilon of anchor dragging (line 710). -/
def epsNeighbor : ℚ := 1e-6

/-- The interior-anchor x-clamp of `mouseMoveEvent` (lines 716-722), with
the locals `minX0 = prevX + epsNeighbor` and `maxX0 = nextX - epsNeighbor`
inlined: clamp the cursor x between the buffered neighbour anchor
x-values, collapsing both bounds to their midpoint when they cross. -/
def interiorClampedX (prevX nextX px : ℚ) : ℚ :=
  max
    (if prevX + epsNeighbor > nextX - epsNeighbor
      then (prevX + epsNeighbor + (nextX - epsNeighbor)) / 2
      else prevX + epsNeighbor)
    (min
      (if prevX + epsNeighbor > nextX - epsNeighbor
        then (prevX + epsNeighbor + (nextX - epsNeighbor)) / 2
        else nextX - epsNeighbor)
      px)

/-- Handle translation when an anchor moves (lines 764-779): a handle that
was not coincident with the anchor (squared offset above `1e-12`) is
translated by the anchor's delta and clamped into the unit square; a
coincident handle stays put. -/
def translatedHandle (handle oldPos delta : Pt) : Pt :=
  let off := ptSub handle oldPos
  if dotPP off off > 1e-12 then clampPt (ptAdd handle delta) else handle

/-- Models `CurveWidget::mouseMoveEvent` (lines 678-844): move the dragged part of
the active curve to the cursor's logical position.  Y is clamped into [0,1].
For a `MAIN_POINT`: x pinned to 0/1 at the endpoints, clamped between the
neighbours' anchor x (with `epsNeighbor` buffer, collapsing to the midpoint
if they cross) for interior nodes, then clamped into [0,1]; handles that
were not coincident with the anchor are translated by the same delta and
clamped; a resort (with fuzzy re-find of the dragged node) runs when the
anchor left its neighbours' x-order.  For a handle: both coordinates clamped
into [0,1], and the opposite handle of a non-`Free` node (when it exists) is
recomputed through the alignment constraint. -/
def mouseMoveDrag (sq : ℚ → ℚ) (s : WidgetState) (logicalPos : Pt) : WidgetState :=
  if ¬ s.dragging ∨ s.selection.part = SelectedPart.NONE then s
  else
    match s.channels.get s.activeChannel with
    | Option.none => s
    | some nodes =>
      if s.selection.nodeIndex < 0 ∨ s.selection.nodeIndex ≥ (nodes.length : Int) then
        { s with dragging := false }
      else
        let idx := s.selection.nodeIndex.toNat
        let node := nodes.getD idx dNode
        let newY := clamp01 logicalPos.y
        match s.selection.part with
        | SelectedPart.NONE => s
        | SelectedPart.MAIN_POINT =>
          let newX1 :=
            if idx = 0 then 0
            else if idx + 1 = nodes.length then 1
            else interiorClampedX (nodes.getD (idx - 1) dNode).mainPoint.x
              (nodes.getD (idx + 1) dNode).mainPoint.x logicalPos.x
          let newX := clamp01 newX1
          let oldPos := node.mainPoint
          let newPos : Pt := ⟨newX, newY⟩
          let delta := ptSub newPos oldPos
          let node1 := { node with mainPoint := newPos
                                   handleIn := translatedHandle node.handleIn oldPos delta
                                   handleOut := translatedHandle node.handleOut oldPos delta }
          let nodes1 := nodes.set idx node1
          let needsReSort :=
            (0 < idx ∧ node1.mainPoint.x < (nodes1.getD (idx - 1) dNode).mainPoint.x) ∨
            (idx + 1 < nodes1.length ∧
              node1.mainPoint.x > (nodes1.getD (idx + 1) dNode).mainPoint.x)
          if needsReSort then
            let sorted := sortActiveNodes nodes1
            match findFuzzyIndex node1.mainPoint sorted with
            | some i =>
              { s with channels := s.channels.set s.activeChannel sorted
                       selection := ⟨SelectedPart.MAIN_POINT, (i : Int)⟩ }
            | Option.none =>
              { s with channels := s.channels.set s.activeChannel sorted
                       selection := ⟨SelectedPart.MAIN_POINT, -1⟩
                       dragging := false }
          else
            { s with channels := s.channels.set s.activeChannel nodes1 }
        | SelectedPart.HANDLE_IN =>
          if idx = 0 then s
          else
            let hasOpposite := idx + 1 < nodes.length
            let newX := clamp01 logicalPos.x
            let moved : Pt := ⟨newX, newY⟩
            let node1 := { node with handleIn := moved }
            let node2 :=
              if hasOpposite ∧ node1.alignment ≠ HandleAlignment.Free then
                { node1 with
                    handleOut := constrainOppositeQ sq node1.alignment node1.mainPoint
                      moved node1.handleOut }
              else node1
            { s with channels := s.channels.set s.activeChannel (nodes.set idx node2) }
        | SelectedPart.HANDLE_OUT =>
          if idx + 1 = nodes.length then s
          else
            let hasOpposite := 0 < idx
            let newX := clamp01 logicalPos.x
            let moved : Pt := ⟨newX, newY⟩
            let node1 := { node with handleOut := moved }
            let node2 :=
              if hasOpposite ∧ node1.alignment ≠ HandleAlignment.Free then
                { node1 with
                    handleIn := constrainOppositeQ sq node1.alignment node1.mainPoint
                      moved node1.handleIn }
              else node1
            { s with channels := s.channels.set s.activeChannel (nodes.set idx node2) }

/-- Result of the curve proximity search; models
`CurveWidget::ClosestSegmentResult` (`segmentIndex` is a C++ `int`, -1
meaning "no segment"). -/
structure ClosestSegmentResult where
  segmentIndex : Int
  t : ℚ
  distanceSq : ℚ
deriving DecidableEq, Repr

/-- The add-node branch of `CurveWidget::mousePressEvent` (lines 571-630),
parameterised by the proximity-search result `hit`: when the hit names a
segment, `0.005 < t < 0.995` and the squared widget distance is below
`20*20`, subdivide the segment at `t`, rewire the neighbours' handles to the
outer subdivision points, splice in the new `Aligned` node, push an undo
command, select the new node and set the dragging flag; otherwise leave the
state unchanged. -/
def tryAddNode (s : WidgetState) (hit : ClosestSegmentResult) : WidgetState :=
  match s.channels.get s.activeChannel with
  | Option.none => s
  | some nodes =>
    if hit.segmentIndex ≠ -1 ∧ hit.t > 0.005 ∧ hit.t < 1 - 0.005 ∧
        hit.distanceSq < 20 * 20 then
      if hit.segmentIndex < 0 ∨ hit.segmentIndex ≥ (nodes.length : Int) - 1 then s
      else
        let before := s.channels
        let i := hit.segmentIndex.toNat
        let t := hit.t
        let n0 := nodes.getD i dNode
        let n1 := nodes.getD (i + 1) dNode
        let split := subdivideBezier n0.mainPoint n0.handleOut n1.handleIn n1.mainPoint t
        let newNode : CurveNode :=
          { mainPoint := split.pointOnCurve
            handleIn := split.handle2_Seg1
            handleOut := split.handle1_Seg2
            alignment := HandleAlignment.Aligned }
        let nodesA := nodes.set i { n0 with handleOut := split.handle1_Seg1 }
        let nodesB := nodesA.set (i + 1) { n1 with handleIn := split.handle2_Seg2 }
        let nodesC := nodesB.insertIdx (i + 1) newNode
        let after := s.channels.set s.activeChannel nodesC
        { s with channels := after
                 undoStack := ⟨before, after⟩ :: s.undoStack
                 selection := ⟨SelectedPart.MAIN_POINT, hit.segmentIndex + 1⟩
                 dragging := true }
    else s

/-- The right-button delete branch of `CurveWidget::mousePressEvent`
(lines 632-660): delete the selected main point only when it is interior
(index strictly between 0 and size-1), pushing an undo command and clearing
the selection; otherwise no state change. -/
def rightClickDelete (s : WidgetState) : WidgetState :=
  match s.channels.get s.activeChannel with
  | Option.none => s
  | some nodes =>
    if s.selection.part = SelectedPart.MAIN_POINT ∧ 0 < s.selection.nodeIndex ∧
        s.selection.nodeIndex < (nodes.length : Int) - 1 then
      let before := s.channels
      let nodes1 := nodes.eraseIdx s.selection.nodeIndex.toNat
      let after := s.channels.set s.activeChannel nodes1
      { s with channels := after
               undoStack := ⟨before, after⟩ :: s.undoStack
               selection := ⟨SelectedPart.NONE, -1⟩
               dragging := false }
    else s

/-! ## Edit-operation language for the invariant claim

Each operation is a press-drag(-release) composite: the press installs the
selection (as `findNearbyPart` would when the user grabs the given part) and
the move runs `mouseMoveDrag`; insert and delete run the corresponding
press branches. -/

/-- The operations quantified over by the invariant claim. -/
inductive EditOp where
  | moveAnchor (idx : Int) (pos : Pt)
  | moveHandleIn (idx : Int) (pos : Pt)
  | moveHandleOut (idx : Int) (pos : Pt)
  | insertNode (hit : ClosestSegmentResult)
  | deleteNode (idx : Int)
deriving DecidableEq, Repr

/-- Apply one edit operation to the widget state. -/
def applyOp (sq : ℚ → ℚ) : EditOp → WidgetState → WidgetState
  | EditOp.moveAnchor idx pos, s =>
    mouseMoveDrag sq { s with selection := ⟨SelectedPart.MAIN_POINT, idx⟩, dragging := true } pos
  | EditOp.moveHandleIn idx pos, s =>
    mouseMoveDrag sq { s with selection := ⟨SelectedPart.HANDLE_IN, idx⟩, dragging := true } pos
  | EditOp.moveHandleOut idx pos, s =>
    mouseMoveDrag sq { s with selection := ⟨SelectedPart.HANDLE_OUT, idx⟩, dragging := true } pos
  | EditOp.insertNode hit, s =>
    tryAddNode { s with selection := ⟨SelectedPart.NONE, -1⟩, dragging := false } hit
  | EditOp.deleteNode idx, s =>
    rightClickDelete { s with selection := ⟨SelectedPart.MAIN_POINT, idx⟩ }

/-- Run a list of edit operations from a state. -/
def runOps (sq : ℚ → ℚ) (ops : List EditOp) (s : WidgetState) : WidgetState :=
  ops.foldl (fun st op => applyOp sq op st) s

/-- The widget state right after construction (lines 103-133). -/
def initialState : WidgetState :=
  ⟨initialChannels, ActiveChannel.RED, ⟨SelectedPart.NONE, -1⟩, false, []⟩

/-- The active channel's node list (empty list standing for the unreachable
missing-channel case). -/
def activeNodesOf (s : WidgetState) : List CurveNode :=
  (s.channels.get s.activeChannel).getD []

/-- Anchor x-coordinates of the active channel. -/
def anchorXs (s : WidgetState) : List ℚ :=
  (activeNodesOf s).map (fun n => n.mainPoint.x)

/-! ## A concrete operation sequence that breaks the sortedness invariant

Starting from the default two-node red channel: drag node 0's out-handle to
(1,0) and node 1's in-handle to (1,0) (both endpoint handles, so no
alignment constraint fires), insert at segment 0, t = 1/2 (the new anchor
lands at (7/8, 1/8)), drag the now-last node's in-handle to (0,1), and
insert at segment 1, t = 7/10.  The second insert's De Casteljau point has
x = 889/1600 < 7/8, and the insert code splices it in *after* the node at
x = 7/8 without re-sorting. -/

/-- Shorthand: the constructor's channel map with the red channel replaced. -/
def c1chan (l : List CurveNode) : ChannelMap :=
  ⟨some l, some defaultNodes, some defaultNodes⟩

/-- The five-operation sequence described above. -/
def c1_ops : List EditOp :=
  [ EditOp.moveHandleOut 0 ⟨1, 0⟩,
    EditOp.moveHandleIn 1 ⟨1, 0⟩,
    EditOp.insertNode ⟨0, 1/2, 0⟩,
    EditOp.moveHandleIn 2 ⟨0, 1⟩,
    EditOp.insertNode ⟨1, 7/10, 0⟩ ]

def c1nodes1 : List CurveNode :=
  [ ⟨⟨0, 0⟩, ⟨0, 0⟩, ⟨1, 0⟩, HandleAlignment.Free⟩,
    ⟨⟨1, 1⟩, ⟨2/3, 1⟩, ⟨1, 1⟩, HandleAlignment.Free⟩ ]

def c1nodes2 : List CurveNode :=
  [ ⟨⟨0, 0⟩, ⟨0, 0⟩, ⟨1, 0⟩, HandleAlignment.Free⟩,
    ⟨⟨1, 1⟩, ⟨1, 0⟩, ⟨1, 1⟩, HandleAlignment.Free⟩ ]

def c1nodes3 : List CurveNode :=
  [ ⟨⟨0, 0⟩, ⟨0, 0⟩, ⟨1/2, 0⟩, HandleAlignment.Free⟩,
    ⟨⟨7/8, 1/8⟩, ⟨3/4, 0⟩, ⟨1, 1/4⟩, HandleAlignment.Aligned⟩,
    ⟨⟨1, 1⟩, ⟨1, 1/2⟩, ⟨1, 1⟩, HandleAlignment.Free⟩ ]

def c1nodes4 : List CurveNode :=
  [ ⟨⟨0, 0⟩, ⟨0, 0⟩, ⟨1/2, 0⟩, HandleAlignment.Free⟩,
    ⟨⟨7/8, 1/8⟩, ⟨3/4, 0⟩, ⟨1, 1/4⟩, HandleAlignment.Aligned⟩,
    ⟨⟨1, 1⟩, ⟨0, 1⟩, ⟨1, 1⟩, HandleAlignment.Free⟩ ]

def c1nodes5 : List CurveNode :=
  [ ⟨⟨0, 0⟩, ⟨0, 0⟩, ⟨1/2, 0⟩, HandleAlignment.Free⟩,
    ⟨⟨7/8, 1/8⟩, ⟨3/4, 0⟩, ⟨77/80, 17/80⟩, HandleAlignment.Aligned⟩,
    ⟨⟨889/1600, 6677/8000⟩, ⟨399/800, 97/160⟩, ⟨29/50, 373/400⟩, HandleAlignment.Aligned⟩,
    ⟨⟨1, 1⟩, ⟨7/10, 1⟩, ⟨1, 1⟩, HandleAlignment.Free⟩ ]

def c1state1 : WidgetState :=
  ⟨c1chan c1nodes1, ActiveChannel.RED, ⟨SelectedPart.HANDLE_OUT, 0⟩, true, []⟩

def c1state2 : WidgetState :=
  ⟨c1chan c1nodes2, ActiveChannel.RED, ⟨SelectedPart.HANDLE_IN, 1⟩, true, []⟩

def c1state3 : WidgetState :=
  ⟨c1chan c1nodes3, ActiveChannel.RED, ⟨SelectedPart.MAIN_POINT, 1⟩, true,
    [⟨c1chan c1nodes2, c1chan c1nodes3⟩]⟩

def c1state4 : WidgetState :=
  ⟨c1chan c1nodes4, ActiveChannel.RED, ⟨SelectedPart.HANDLE_IN, 2⟩, true,
    [⟨c1chan c1nodes2, c1chan c1nodes3⟩]⟩

def c1state5 : WidgetState :=
  ⟨c1chan c1nodes5, ActiveChannel.RED, ⟨SelectedPart.MAIN_POINT, 2⟩, true,
    [⟨c1chan c1nodes4, c1chan c1nodes5⟩, ⟨c1chan c1nodes2, c1chan c1nodes3⟩]⟩

theorem int_toNat_zero : Int.toNat 0 = 0 := rfl

theorem int_toNat_one : Int.toNat 1 = 1 := rfl

theorem int_toNat_two : Int.toNat 2 = 2 := rfl

theorem c1_step1 (sq : ℚ → ℚ) :
    applyOp sq (EditOp.moveHandleOut 0 ⟨1, 0⟩) initialState = c1state1 := by
  norm_num [applyOp, mouseMoveDrag, initialState, initialChannels, defaultNodes,
    defaultNode0, defaultNode1, ChannelMap.get, ChannelMap.set, clamp01,
    int_toNat_zero, int_toNat_one, int_toNat_two, List.getD, dNode, c1state1, c1chan, c1nodes1]
  all_goals decide

theorem c1_step2 (sq : ℚ → ℚ) :
    applyOp sq (EditOp.moveHandleIn 1 ⟨1, 0⟩) c1state1 = c1state2 := by
  norm_num [applyOp, mouseMoveDrag, ChannelMap.get, ChannelMap.set, clamp01,
    int_toNat_zero, int_toNat_one, int_toNat_two, List.getD, dNode, c1state1, c1state2, c1chan, c1nodes1, c1nodes2,
    defaultNodes, defaultNode0, defaultNode1]
  all_goals decide

theorem c1_step3 (sq : ℚ → ℚ) :
    applyOp sq (EditOp.insertNode ⟨0, 1/2, 0⟩) c1state2 = c1state3 := by
  norm_num [applyOp, tryAddNode, ChannelMap.get, ChannelMap.set, List.getD,
    dNode, c1state2, c1state3, c1chan, c1nodes2, c1nodes3, subdivideBezier,
    int_toNat_zero, int_toNat_one, int_toNat_two, lerp, List.insertIdx]

theorem c1_step4 (sq : ℚ → ℚ) :
    applyOp sq (EditOp.moveHandleIn 2 ⟨0, 1⟩) c1state3 = c1state4 := by
  norm_num [applyOp, mouseMoveDrag, ChannelMap.get, ChannelMap.set, clamp01,
    int_toNat_zero, int_toNat_one, int_toNat_two, List.getD, dNode, c1state3, c1state4, c1chan, c1nodes3, c1nodes4]
  all_goals decide

theorem c1_step5 (sq : ℚ → ℚ) :
    applyOp sq (EditOp.insertNode ⟨1, 7/10, 0⟩) c1state4 = c1state5 := by
  norm_num [applyOp, tryAddNode, ChannelMap.get, ChannelMap.set, List.getD,
    dNode, c1state4, c1state5, c1chan, c1nodes4, c1nodes5, subdivideBezier,
    int_toNat_zero, int_toNat_one, int_toNat_two, lerp, List.insertIdx]

/-- C1 fails on the code: after the `c1_ops` sequence of handle-move and
insert-node operations, the active channel's anchors sit at x-coordinates
[0, 7/8, 889/1600, 1] (for any square-root realisation `sq`, which the
executed branches never consult), so the node list is *not* sorted ascending
by anchor x: the second insert splices the De Casteljau point (whose x lies
outside its bracketing anchors' x-range because of the extreme handles) past
its right neighbour without re-sorting, violating the code's own stated
assumption "nodes MUST be sorted by mainPoint.x()". -/
theorem c1_insert_breaks_sorting (sq : ℚ → ℚ) :
    anchorXs (runOps sq c1_ops initialState) = [0, 7/8, 889/1600, 1] ∧
    ¬ xSorted (activeNodesOf (runOps sq c1_ops initialState)) := by
  have hrun : runOps sq c1_ops initialState = c1state5 := by
    unfold runOps c1_ops
    simp only [List.foldl]
    rw [c1_step1 sq, c1_step2 sq, c1_step3 sq, c1_step4 sq, c1_step5 sq]
  rw [hrun]
  constructor
  · norm_num [anchorXs, activeNodesOf, c1state5, c1chan, c1nodes5, ChannelMap.get]
  · intro hs
    have h12 : (7/8 : ℚ) ≤ 889/1600 := by
      have := hs.2.1
      simpa [activeNodesOf, c1state5, c1chan, c1nodes5, ChannelMap.get] using this
    norm_num at h12

/-! ## Helper lemmas about the store -/

theorem ChannelMap.get_set_self (m : ChannelMap) (c : ActiveChannel)
    (v : List CurveNode) : (m.set c v).get c = some v := by
  cases c <;> rfl

theorem ChannelMap.get_set_ne (m : ChannelMap) (c c' : ActiveChannel)
    (v : List CurveNode) (h : c ≠ c') : (m.set c v).get c' = m.get c' := by
  cases c <;> cases c' <;> first
    | rfl
    | exact absurd rfl h

theorem getD_set_self : ∀ (l : List CurveNode) (i : Nat) (a d : CurveNode),
    i < l.length → (l.set i a).getD i d = a
  | [], i, a, d => by intro h; simp at h
  | b :: t, 0, a, d => by intro _; rfl
  | b :: t, i + 1, a, d => by
    intro h
    simp only [List.set]
    have := getD_set_self t i a d (by simpa using h)
    simpa [List.getD] using this

theorem getD_set_ne : ∀ (l : List CurveNode) (i j : Nat) (a d : CurveNode),
    i ≠ j → (l.set i a).getD j d = l.getD j d
  | [], i, j, a, d => by intro _; rfl
  | b :: t, 0, 0, a, d => by intro h; exact absurd rfl h
  | b :: t, 0, j + 1, a, d => by intro _; rfl
  | b :: t, i + 1, 0, a, d => by intro _; rfl
  | b :: t, i + 1, j + 1, a, d => by
    intro h
    have := getD_set_ne t i j a d (fun hc => h (by rw [hc]))
    simpa [List.set, List.getD] using this

/-! ## Case shapes of the three pushing operations -/

/-- The operation `setNodeAlignment` either leaves the state unchanged, or changes only the
channel map, or changes the channel map and pushes exactly the
(pre-action, post-action) command. -/
theorem setNodeAlignment_cases (sq : ℚ → ℚ) (s : WidgetState) (idx : Int)
    (mode : HandleAlignment) :
    setNodeAlignment sq s idx mode = s ∨
    (∃ after, setNodeAlignment sq s idx mode = { s with channels := after }) ∨
    (∃ after, setNodeAlignment sq s idx mode =
      { s with channels := after, undoStack := ⟨s.channels, after⟩ :: s.undoStack }) := by
  unfold setNodeAlignment
  cases hm : s.channels.get s.activeChannel with
  | none => exact Or.inl rfl
  | some nodes =>
    dsimp only
    split
    · exact Or.inl rfl
    · split
      · exact Or.inl rfl
      · split
        · exact Or.inr (Or.inl ⟨_, rfl⟩)
        · exact Or.inr (Or.inr ⟨_, rfl⟩)

/-- The operation `tryAddNode` either leaves the state unchanged or installs the new node
list, pushes exactly the (pre-action, post-action) command, selects the new
node and sets the dragging flag. -/
theorem tryAddNode_cases (s : WidgetState) (hit : ClosestSegmentResult) :
    tryAddNode s hit = s ∨
    (∃ after, tryAddNode s hit =
      { s with channels := after
               undoStack := ⟨s.channels, after⟩ :: s.undoStack
               selection := ⟨SelectedPart.MAIN_POINT, hit.segmentIndex + 1⟩
               dragging := true }) := by
  unfold tryAddNode
  cases hm : s.channels.get s.activeChannel with
  | none => exact Or.inl rfl
  | some nodes =>
    dsimp only
    split
    · split
      · exact Or.inl rfl
      · exact Or.inr ⟨_, rfl⟩
    · exact Or.inl rfl

/-- The operation `rightClickDelete` either leaves the state unchanged or removes the
selected interior node, pushes exactly the (pre-action, post-action)
command, clears the selection and stops dragging. -/
theorem rightClickDelete_cases (s : WidgetState) :
    rightClickDelete s = s ∨
    (∃ after, rightClickDelete s =
      { s with channels := after
               undoStack := ⟨s.channels, after⟩ :: s.undoStack
               selection := ⟨SelectedPart.NONE, -1⟩
               dragging := false }) := by
  unfold rightClickDelete
  cases hm : s.channels.get s.activeChannel with
  | none => exact Or.inl rfl
  | some nodes =>
    dsimp only
    split
    · exact Or.inr ⟨_, rfl⟩
    · exact Or.inl rfl

/-- C3: `SetCurveStateCommand` restores whole channel maps: undo followed by
redo yields exactly the command's post-action map, and undo alone yields
exactly the command's pre-action map (exact equality, hence equality within
the 1e-9 tolerance), from any state; and every command pushed by the
mutating operations (set-alignment, add-node, delete-node) stores the full
pre-action channel map as `oldState` and the operation's post-action channel
map as `newState`. -/
theorem c3_undo_redo_restores :
    (∀ (c : Command) (s : WidgetState),
      (commandUndo c s).channels = c.oldState ∧
      (commandRedo c (commandUndo c s)).channels = c.newState) ∧
    (∀ (sq : ℚ → ℚ) (s : WidgetState) (idx : Int) (mode : HandleAlignment)
        (cmd : Command),
      (setNodeAlignment sq s idx mode).undoStack = cmd :: s.undoStack →
      cmd.oldState = s.channels ∧
      cmd.newState = (setNodeAlignment sq s idx mode).channels) ∧
    (∀ (s : WidgetState) (hit : ClosestSegmentResult) (cmd : Command),
      (tryAddNode s hit).undoStack = cmd :: s.undoStack →
      cmd.oldState = s.channels ∧ cmd.newState = (tryAddNode s hit).channels) ∧
    (∀ (s : WidgetState) (cmd : Command),
      (rightClickDelete s).undoStack = cmd :: s.undoStack →
      cmd.oldState = s.channels ∧ cmd.newState = (rightClickDelete s).channels) := by
  refine ⟨fun c s => ⟨rfl, rfl⟩, ?_, ?_, ?_⟩
  · intro sq s idx mode cmd h
    rcases setNodeAlignment_cases sq s idx mode with heq | ⟨after, heq⟩ | ⟨after, heq⟩
    · rw [heq] at h
      exact absurd h.symm (List.cons_ne_self _ _)
    · rw [heq] at h
      exact absurd h.symm (List.cons_ne_self _ _)
    · rw [heq] at h
      injection h with h1 _
      rw [heq, ← h1]
      exact ⟨rfl, rfl⟩
  · intro s hit cmd h
    rcases tryAddNode_cases s hit with heq | ⟨after, heq⟩
    · rw [heq] at h
      exact absurd h.symm (List.cons_ne_self _ _)
    · rw [heq] at h
      injection h with h1 _
      rw [heq, ← h1]
      exact ⟨rfl, rfl⟩
  · intro s cmd h
    rcases rightClickDelete_cases s with heq | ⟨after, heq⟩
    · rw [heq] at h
      exact absurd h.symm (List.cons_ne_self _ _)
    · rw [heq] at h
      injection h with h1 _
      rw [heq, ← h1]
      exact ⟨rfl, rfl⟩

/-- A placeholder square-root realisation used to instantiate `sq` at
concrete inputs whose evaluation never consults it. -/
def sqZero : ℚ → ℚ := fun _ => 0

/-- The post-action channel map of the C3 witness: node 0 of the red channel
switched to `Aligned`. -/
def c3after : ChannelMap :=
  ChannelMap.set initialChannels ActiveChannel.RED
    [⟨⟨0, 0⟩, ⟨0, 0⟩, ⟨1/3, 0⟩, HandleAlignment.Aligned⟩, defaultNode1]

/-- Witness for C3 at a concrete input: changing node 0's alignment from
`Free` to `Aligned` on the fresh widget pushes the (before, after) command,
whose stored maps are the pre- and post-action channel maps, and whose
undo-then-redo lands on the post-action map. -/
theorem c3_undo_redo_restores_witness :
    (setNodeAlignment sqZero initialState 0 HandleAlignment.Aligned).undoStack
      = (⟨initialChannels, c3after⟩ : Command) :: initialState.undoStack ∧
    (⟨initialChannels, c3after⟩ : Command).oldState = initialState.channels ∧
    (⟨initialChannels, c3after⟩ : Command).newState
      = (setNodeAlignment sqZero initialState 0 HandleAlignment.Aligned).channels ∧
    (commandRedo ⟨initialChannels, c3after⟩
      (commandUndo ⟨initialChannels, c3after⟩ initialState)).channels = c3after := by
  have hpush : (setNodeAlignment sqZero initialState 0 HandleAlignment.Aligned).undoStack
      = (⟨initialChannels, c3after⟩ : Command) :: initialState.undoStack := by
    norm_num [setNodeAlignment, initialState, initialChannels, defaultNodes,
      defaultNode0, defaultNode1, ChannelMap.get, ChannelMap.set, List.getD,
      dNode, int_toNat_zero, applyAlignmentSnap, mapFuzzyEq, optVecFuzzyEq,
      vecFuzzyEq, nodeFuzzyEq, c3after]
    all_goals with_unfolding_all decide
  have h2 := (c3_undo_redo_restores.2.1 sqZero initialState 0
    HandleAlignment.Aligned ⟨initialChannels, c3after⟩ hpush)
  exact ⟨hpush, h2.1, h2.2,
    (c3_undo_redo_restores.1 ⟨initialChannels, c3after⟩ initialState).2⟩

/-- C6: the add-node press path inserts exactly when the proximity hit names
a segment with `0.005 < t < 0.995` and squared widget distance below `20^2`
(and the segment index is in range, as every hit produced by the proximity
search is); the insertion splices in a node whose anchor is the De Casteljau
point on the curve at `t` (equal to the Bezier evaluation at `t`), whose
handles are the inner subdivision points, whose alignment is `Aligned`,
rewires the left neighbour's `handleOut` and the right neighbour's
`handleIn` to the outer subdivision points, pushes the undo command, and
makes the new node the sole selection and drag target; otherwise the state
is unchanged. -/
theorem c6_insert_on_segment (s : WidgetState) (nodes : List CurveNode)
    (hit : ClosestSegmentResult)
    (hm : s.channels.get s.activeChannel = some nodes) :
    ((hit.segmentIndex ≠ -1 ∧ 0.005 < hit.t ∧ hit.t < 1 - 0.005 ∧
        hit.distanceSq < 20 * 20) →
      ¬ (hit.segmentIndex < 0 ∨ hit.segmentIndex ≥ (nodes.length : Int) - 1) →
      tryAddNode s hit =
        (let i := hit.segmentIndex.toNat
         let n0 := nodes.getD i dNode
         let n1 := nodes.getD (i + 1) dNode
         let split := subdivideBezier n0.mainPoint n0.handleOut n1.handleIn
           n1.mainPoint hit.t
         let newNode : CurveNode :=
           ⟨split.pointOnCurve, split.handle2_Seg1, split.handle1_Seg2,
             HandleAlignment.Aligned⟩
         let after := s.channels.set s.activeChannel
           (((nodes.set i { n0 with handleOut := split.handle1_Seg1 }).set (i + 1)
              { n1 with handleIn := split.handle2_Seg2 }).insertIdx (i + 1) newNode)
         { s with channels := after
                  undoStack := ⟨s.channels, after⟩ :: s.undoStack
                  selection := ⟨SelectedPart.MAIN_POINT, hit.segmentIndex + 1⟩
                  dragging := true }) ∧
      (subdivideBezier (nodes.getD hit.segmentIndex.toNat dNode).mainPoint
          (nodes.getD hit.segmentIndex.toNat dNode).handleOut
          (nodes.getD (hit.segmentIndex.toNat + 1) dNode).handleIn
          (nodes.getD (hit.segmentIndex.toNat + 1) dNode).mainPoint hit.t).pointOnCurve
        = evaluateBezier (nodes.getD hit.segmentIndex.toNat dNode).mainPoint
            (nodes.getD hit.segmentIndex.toNat dNode).handleOut
            (nodes.getD (hit.segmentIndex.toNat + 1) dNode).handleIn
            (nodes.getD (hit.segmentIndex.toNat + 1) dNode).mainPoint hit.t) ∧
    (¬ (hit.segmentIndex ≠ -1 ∧ 0.005 < hit.t ∧ hit.t < 1 - 0.005 ∧
        hit.distanceSq < 20 * 20) →
      tryAddNode s hit = s) ∧
    ((hit.segmentIndex ≠ -1 ∧ 0.005 < hit.t ∧ hit.t < 1 - 0.005 ∧
        hit.distanceSq < 20 * 20) →
      (hit.segmentIndex < 0 ∨ hit.segmentIndex ≥ (nodes.length : Int) - 1) →
      tryAddNode s hit = s) := by
  refine ⟨?_, ?_, ?_⟩
  · intro hcond hbound
    constructor
    · unfold tryAddNode
      rw [hm]
      dsimp only
      rw [if_pos hcond, if_neg hbound]
    · exact subdivide_point_eq_eval _ _ _ _ _
  · intro hcond
    unfold tryAddNode
    rw [hm]
    dsimp only
    rw [if_neg hcond]
  · intro hcond hbound
    unfold tryAddNode
    rw [hm]
    dsimp only
    rw [if_pos hcond, if_pos hbound]

/-- Witness for C6 at a concrete input: inserting at segment 0, t = 1/2 of
the default red channel (hit distance 0) yields anchors at x = 0, 1/2, 1,
selects the new node 1 and sets the dragging flag. -/
theorem c6_insert_on_segment_witness :
    ((0 : Int) ≠ -1 ∧ (0.005 : ℚ) < 1/2 ∧ (1/2 : ℚ) < 1 - 0.005 ∧
      (0 : ℚ) < 20 * 20) ∧
    anchorXs (tryAddNode initialState ⟨0, 1/2, 0⟩) = [0, 1/2, 1] ∧
    (tryAddNode initialState ⟨0, 1/2, 0⟩).selection
      = ⟨SelectedPart.MAIN_POINT, 1⟩ ∧
    (tryAddNode initialState ⟨0, 1/2, 0⟩).dragging = true := by
  have hcond : ((0 : Int) ≠ -1 ∧ (0.005 : ℚ) < 1/2 ∧ (1/2 : ℚ) < 1 - 0.005 ∧
      (0 : ℚ) < 20 * 20) := by
    refine ⟨by decide, by norm_num, by norm_num, by norm_num⟩
  have h := ((c6_insert_on_segment initialState defaultNodes ⟨0, 1/2, 0⟩ rfl).1
    hcond (by norm_num [initialState, defaultNodes])).1
  rw [show anchorXs (tryAddNode initialState ⟨0, 1/2, 0⟩)
        = [0, 1/2, 1] from by
      rw [h]
      norm_num [anchorXs, activeNodesOf, initialState, initialChannels,
        defaultNodes, defaultNode0, defaultNode1, ChannelMap.get,
        ChannelMap.set, List.getD, dNode, int_toNat_zero, subdivideBezier,
        lerp, List.insertIdx]]
  rw [h]
  refine ⟨hcond, rfl, rfl, rfl⟩

theorem clamp01_zero : clamp01 0 = 0 := by norm_num [clamp01]

theorem clamp01_one : clamp01 1 = 1 := by norm_num [clamp01]

theorem getD_mem_of_lt (l : List CurveNode) (i : Nat) (d : CurveNode)
    (h : i < l.length) : l.getD i d ∈ l := by
  rw [List.getD_eq_getElem l d h]
  exact List.getElem_mem h

/-- The widget state of the C7 counterexample: default red channel, node 1's
in-handle grabbed, drag in progress. -/
def c7state : WidgetState :=
  ⟨initialChannels, ActiveChannel.RED, ⟨SelectedPart.HANDLE_IN, 1⟩, true, []⟩

/-- C7 as stated is false on the code: dragging node 1's in-handle to the
logical cursor position (3/2, 1/2) does **not** leave the handle's x
unclamped - the code clamps handle x into [0,1] (curvewidget.cpp lines 736
and 747), so the handle lands at (1, 1/2), not at the cursor x = 3/2. -/
theorem c7_counterexample :
    ((activeNodesOf (mouseMoveDrag sqZero c7state ⟨3/2, 1/2⟩)).getD 1 dNode).handleIn
      = ⟨1, 1/2⟩ ∧
    ¬ ((activeNodesOf (mouseMoveDrag sqZero c7state ⟨3/2, 1/2⟩)).getD 1 dNode).handleIn
      = ⟨3/2, 1/2⟩ := by
  have h : ((activeNodesOf (mouseMoveDrag sqZero c7state ⟨3/2, 1/2⟩)).getD 1 dNode).handleIn
      = ⟨1, 1/2⟩ := by
    norm_num [mouseMoveDrag, c7state, initialChannels, defaultNodes,
      defaultNode0, defaultNode1, ChannelMap.get, ChannelMap.set, clamp01,
      List.getD, dNode, int_toNat_one, activeNodesOf]
    all_goals with_unfolding_all decide
  refine ⟨h, ?_⟩
  rw [h]
  intro hc
  have : (1 : ℚ) = 3/2 := congrArg Pt.x hc
  norm_num at this

/-- The interior-anchor x-clamp of `mouseMoveEvent` (lines 716-724): for
neighbour anchor x-values `P ≤ N` inside [0,1], the clamped value
`clamp01 (max minX (min maxX px))` (with the `epsNeighbor` buffer and the
midpoint collapse when the buffered bounds cross) always lands between `P`
and `N`. -/
theorem interiorAnchorClamp (P N px : ℚ) (hP0 : 0 ≤ P) (hN1 : N ≤ 1)
    (hPN : P ≤ N) :
    P ≤ clamp01 (interiorClampedX P N px) ∧
    clamp01 (interiorClampedX P N px) ≤ N := by
  have heps : (0 : ℚ) < epsNeighbor := by norm_num [epsNeighbor]
  unfold interiorClampedX
  by_cases hc : P + epsNeighbor > N - epsNeighbor
  · rw [if_pos hc, if_pos hc]
    have hmid : (P + epsNeighbor + (N - epsNeighbor)) / 2 = (P + N) / 2 := by ring
    rw [hmid, max_eq_left (min_le_left _ _),
      clamp01_eq_self (by linarith) (by linarith)]
    constructor <;> linarith
  · rw [if_neg hc, if_neg hc]
    have hle : P + epsNeighbor ≤ N - epsNeighbor := not_lt.mp hc
    have hv1 : P + epsNeighbor ≤ max (P + epsNeighbor) (min (N - epsNeighbor) px) :=
      le_max_left _ _
    have hv2 : max (P + epsNeighbor) (min (N - epsNeighbor) px) ≤ N - epsNeighbor :=
      max_le hle (min_le_left _ _)
    rw [clamp01_eq_self (by linarith) (by linarith)]
    constructor <;> linarith

/-- C7 (amended): while dragging a handle, the handle is moved to the
cursor's logical position with **both** coordinates clamped into [0,1]
(handle x is clamped to [0,1] just like y, unlike the claim's "x left
unclamped"); anchor moves instead clamp x against the neighbours and pin
the endpoint anchors: the first anchor stays at x = 0, the last at x = 1,
and an interior anchor's new position is the cursor clamped (with the
`epsNeighbor` buffer and final [0,1] clamp) so that its x stays between the
neighbours' anchor x (shown for channels whose anchors lie in [0,1], the
channel invariant). -/
theorem c7_handle_move_clamped :
    (∀ (sq : ℚ → ℚ) (s : WidgetState) (nodes : List CurveNode) (idx : Int) (pos : Pt),
      s.channels.get s.activeChannel = some nodes →
      s.dragging = true → s.selection = ⟨SelectedPart.HANDLE_IN, idx⟩ →
      ¬ (idx < 0 ∨ idx ≥ (nodes.length : Int)) → idx.toNat ≠ 0 →
      ((activeNodesOf (mouseMoveDrag sq s pos)).getD idx.toNat dNode).handleIn
        = ⟨clamp01 pos.x, clamp01 pos.y⟩) ∧
    (∀ (sq : ℚ → ℚ) (s : WidgetState) (nodes : List CurveNode) (idx : Int) (pos : Pt),
      s.channels.get s.activeChannel = some nodes →
      s.dragging = true → s.selection = ⟨SelectedPart.HANDLE_OUT, idx⟩ →
      ¬ (idx < 0 ∨ idx ≥ (nodes.length : Int)) → idx.toNat + 1 ≠ nodes.length →
      ((activeNodesOf (mouseMoveDrag sq s pos)).getD idx.toNat dNode).handleOut
        = ⟨clamp01 pos.x, clamp01 pos.y⟩) ∧
    (∀ (sq : ℚ → ℚ) (s : WidgetState) (nodes : List CurveNode) (pos : Pt),
      s.channels.get s.activeChannel = some nodes →
      s.dragging = true → s.selection = ⟨SelectedPart.MAIN_POINT, 0⟩ →
      0 < nodes.length →
      (∀ n ∈ nodes, 0 ≤ n.mainPoint.x) →
      ((activeNodesOf (mouseMoveDrag sq s pos)).getD 0 dNode).mainPoint
        = ⟨0, clamp01 pos.y⟩) ∧
    (∀ (sq : ℚ → ℚ) (s : WidgetState) (nodes : List CurveNode) (pos : Pt),
      s.channels.get s.activeChannel = some nodes →
      s.dragging = true →
      s.selection = ⟨SelectedPart.MAIN_POINT, (nodes.length : Int) - 1⟩ →
      2 ≤ nodes.length →
      (∀ n ∈ nodes, n.mainPoint.x ≤ 1) →
      ((activeNodesOf (mouseMoveDrag sq s pos)).getD (nodes.length - 1) dNode).mainPoint
        = ⟨1, clamp01 pos.y⟩) ∧
    (∀ (sq : ℚ → ℚ) (s : WidgetState) (nodes : List CurveNode) (idx : Int) (pos : Pt),
      s.channels.get s.activeChannel = some nodes →
      s.dragging = true → s.selection = ⟨SelectedPart.MAIN_POINT, idx⟩ →
      0 < idx → idx + 1 < (nodes.length : Int) →
      (∀ n ∈ nodes, 0 ≤ n.mainPoint.x ∧ n.mainPoint.x ≤ 1) →
      (nodes.getD (idx.toNat - 1) dNode).mainPoint.x
        ≤ (nodes.getD (idx.toNat + 1) dNode).mainPoint.x →
      ((activeNodesOf (mouseMoveDrag sq s pos)).getD idx.toNat dNode).mainPoint
        = ⟨clamp01 (interiorClampedX (nodes.getD (idx.toNat - 1) dNode).mainPoint.x
            (nodes.getD (idx.toNat + 1) dNode).mainPoint.x pos.x),
          clamp01 pos.y⟩ ∧
      (nodes.getD (idx.toNat - 1) dNode).mainPoint.x
        ≤ ((activeNodesOf (mouseMoveDrag sq s pos)).getD idx.toNat dNode).mainPoint.x ∧
      ((activeNodesOf (mouseMoveDrag sq s pos)).getD idx.toNat dNode).mainPoint.x
        ≤ (nodes.getD (idx.toNat + 1) dNode).mainPoint.x) := by
  refine ⟨?_, ?_, ?_, ?_, ?_⟩
  · intro sq s nodes idx pos hm hdrag hsel hbound hidx
    have hlt : idx.toNat < nodes.length := by omega
    unfold mouseMoveDrag
    rw [hdrag, hsel, hm]
    dsimp only
    rw [if_neg (by simp), if_neg hbound, if_neg hidx]
    dsimp only [activeNodesOf]
    rw [ChannelMap.get_set_self]
    dsimp only [Option.getD]
    rw [getD_set_self _ _ _ _ hlt]
    split <;> rfl
  · intro sq s nodes idx pos hm hdrag hsel hbound hidx
    have hlt : idx.toNat < nodes.length := by omega
    unfold mouseMoveDrag
    rw [hdrag, hsel, hm]
    dsimp only
    rw [if_neg (by simp), if_neg hbound, if_neg hidx]
    dsimp only [activeNodesOf]
    rw [ChannelMap.get_set_self]
    dsimp only [Option.getD]
    rw [getD_set_self _ _ _ _ hlt]
    split <;> rfl
  · intro sq s nodes pos hm hdrag hsel hlen hx
    have hb : ¬ ((0 : Int) < 0 ∨ (0 : Int) ≥ (nodes.length : Int)) := by omega
    unfold mouseMoveDrag
    rw [hdrag, hsel, hm]
    dsimp only
    rw [if_neg (by simp), if_neg hb]
    simp only [int_toNat_zero, eq_self_iff_true, if_true, clamp01_zero]
    split
    · rename_i hres
      exfalso
      rcases hres with ⟨h00, _⟩ | ⟨hl, hgt⟩
      · exact absurd h00 (lt_irrefl 0)
      · rw [List.length_set] at hl
        rw [getD_set_ne _ _ _ _ _ (by omega)] at hgt
        exact absurd hgt
          (not_lt.mpr (hx _ (getD_mem_of_lt nodes (0 + 1) dNode hl)))
    · dsimp only [activeNodesOf]
      rw [ChannelMap.get_set_self]
      dsimp only [Option.getD]
      rw [getD_set_self _ _ _ _ hlen]
  · intro sq s nodes pos hm hdrag hsel hlen hx
    have hb : ¬ ((nodes.length : Int) - 1 < 0 ∨
        (nodes.length : Int) - 1 ≥ (nodes.length : Int)) := by omega
    have htn : ((nodes.length : Int) - 1).toNat = nodes.length - 1 := by omega
    have hne0 : nodes.length - 1 ≠ 0 := by omega
    have hlt : nodes.length - 1 < nodes.length := by omega
    unfold mouseMoveDrag
    rw [hdrag, hsel, hm]
    dsimp only
    rw [if_neg (by simp), if_neg hb]
    simp only [htn]
    rw [if_neg hne0, if_pos (by omega : nodes.length - 1 + 1 = nodes.length)]
    simp only [clamp01_one]
    split
    · rename_i hres
      exfalso
      rcases hres with ⟨_, hltp⟩ | ⟨hlen2, _⟩
      · rw [getD_set_ne _ _ _ _ _ (by omega)] at hltp
        exact absurd hltp
          (not_lt.mpr (hx _ (getD_mem_of_lt nodes (nodes.length - 1 - 1) dNode (by omega))))
      · rw [List.length_set] at hlen2
        omega
    · dsimp only [activeNodesOf]
      rw [ChannelMap.get_set_self]
      dsimp only [Option.getD]
      rw [getD_set_self _ _ _ _ hlt]
  · intro sq s nodes idx pos hm hdrag hsel h0 hilen hx hsorted
    have hb : ¬ (idx < 0 ∨ idx ≥ (nodes.length : Int)) := by omega
    have hid0 : ¬ idx.toNat = 0 := by omega
    have hidlast : ¬ idx.toNat + 1 = nodes.length := by omega
    have hprevlt : idx.toNat - 1 < nodes.length := by omega
    have hnextlt : idx.toNat + 1 < nodes.length := by omega
    have hidxlt : idx.toNat < nodes.length := by omega
    obtain ⟨hP0, hP1⟩ := hx _ (getD_mem_of_lt nodes (idx.toNat - 1) dNode hprevlt)
    obtain ⟨hN0, hN1⟩ := hx _ (getD_mem_of_lt nodes (idx.toNat + 1) dNode hnextlt)
    have hcl := interiorAnchorClamp (nodes.getD (idx.toNat - 1) dNode).mainPoint.x
      (nodes.getD (idx.toNat + 1) dNode).mainPoint.x pos.x hP0 hN1 hsorted
    unfold mouseMoveDrag
    rw [hdrag, hsel, hm]
    dsimp only
    rw [if_neg (by simp), if_neg hb, if_neg hid0, if_neg hidlast]
    split
    · rename_i hres
      exfalso
      rcases hres with ⟨_, hltp⟩ | ⟨_, hgtp⟩
      · rw [getD_set_ne _ _ _ _ _ (by omega)] at hltp
        exact absurd hltp (not_lt.mpr hcl.1)
      · rw [getD_set_ne _ _ _ _ _ (by omega)] at hgtp
        exact absurd hgtp (not_lt.mpr hcl.2)
    · dsimp only [activeNodesOf]
      rw [ChannelMap.get_set_self]
      dsimp only [Option.getD]
      rw [getD_set_self _ _ _ _ hidxlt]
      exact ⟨rfl, hcl.1, hcl.2⟩

/-- Widget state of the interior-anchor part of the C7 witness: the
three-node channel `c1nodes3` (anchors at x = 0, 7/8, 1) with its interior
node 1 grabbed as a main point, drag in progress. -/
def c7stateInterior : WidgetState :=
  ⟨c1chan c1nodes3, ActiveChannel.RED, ⟨SelectedPart.MAIN_POINT, 1⟩, true, []⟩

/-- Witness for the amended C7 at concrete inputs: dragging node 1's
in-handle of the default red channel to cursor (3/2, 1/2) parks it at
(clamp01 (3/2), clamp01 (1/2)) = (1, 1/2); and dragging the interior anchor
of `c1nodes3` to cursor (19/20, 2) parks it at (19/20, 1), between its
neighbours' anchor x-values. -/
theorem c7_handle_move_clamped_witness :
    c7state.dragging = true ∧
    ((activeNodesOf (mouseMoveDrag sqZero c7state ⟨3/2, 1/2⟩)).getD 1 dNode).handleIn
      = ⟨clamp01 (3/2), clamp01 (1/2)⟩ ∧
    clamp01 (3/2) = 1 ∧
    ((activeNodesOf (mouseMoveDrag sqZero c7stateInterior ⟨19/20, 2⟩)).getD 1 dNode).mainPoint
      = ⟨19/20, 1⟩ ∧
    (c1nodes3.getD 0 dNode).mainPoint.x
      ≤ ((activeNodesOf (mouseMoveDrag sqZero c7stateInterior ⟨19/20, 2⟩)).getD 1 dNode).mainPoint.x ∧
    ((activeNodesOf (mouseMoveDrag sqZero c7stateInterior ⟨19/20, 2⟩)).getD 1 dNode).mainPoint.x
      ≤ (c1nodes3.getD 2 dNode).mainPoint.x := by
  have h5 := c7_handle_move_clamped.2.2.2.2 sqZero c7stateInterior c1nodes3 1
    ⟨19/20, 2⟩ rfl rfl rfl (by decide) (by with_unfolding_all decide)
    (by with_unfolding_all decide) (by with_unfolding_all decide)
  rw [int_toNat_one] at h5
  refine ⟨rfl, ?_, by norm_num [clamp01], ?_, h5.2.1, h5.2.2⟩
  · exact c7_handle_move_clamped.1 sqZero c7state defaultNodes 1 ⟨3/2, 1/2⟩ rfl rfl rfl
      (by with_unfolding_all decide) (by decide)
  · rw [h5.1]
    with_unfolding_all decide

/-- C8: setting a node's alignment to its current value leaves the whole
widget state (channels and undo stack included) unchanged, and a right-click
delete whose selected main point is the first or last node of the active
channel leaves the whole widget state unchanged. -/
theorem c8_noop_detection :
    (∀ (sq : ℚ → ℚ) (s : WidgetState) (nodes : List CurveNode) (idx : Int)
        (mode : HandleAlignment),
      s.channels.get s.activeChannel = some nodes →
      ¬ (idx < 0 ∨ idx ≥ (nodes.length : Int)) →
      (nodes.getD idx.toNat dNode).alignment = mode →
      setNodeAlignment sq s idx mode = s) ∧
    (∀ (s : WidgetState) (nodes : List CurveNode),
      s.channels.get s.activeChannel = some nodes →
      (s.selection.nodeIndex = 0 ∨
        s.selection.nodeIndex = (nodes.length : Int) - 1) →
      rightClickDelete s = s) := by
  constructor
  · intro sq s nodes idx mode hm hbound hmode
    unfold setNodeAlignment
    rw [hm]
    dsimp only
    rw [if_neg hbound, if_pos hmode]
  · intro s nodes hm hidx
    unfold rightClickDelete
    rw [hm]
    dsimp only
    rw [if_neg (by rintro ⟨_, h1, h2⟩; rcases hidx with h | h <;> omega)]

/-- Widget state used by the C8 witness: default channels with node 0 of the
red channel selected as a main point. -/
def c8state : WidgetState :=
  ⟨initialChannels, ActiveChannel.RED, ⟨SelectedPart.MAIN_POINT, 0⟩, false, []⟩

/-- Witness for C8 at concrete inputs: re-setting node 0's alignment to its
current `Free` is a strict no-op, and right-click deleting the selected
first node is a strict no-op. -/
theorem c8_noop_detection_witness :
    setNodeAlignment sqZero initialState 0 HandleAlignment.Free = initialState ∧
    rightClickDelete c8state = c8state := by
  constructor
  · exact c8_noop_detection.1 sqZero initialState defaultNodes 0 HandleAlignment.Free
      rfl (by decide) (by with_unfolding_all decide)
  · exact c8_noop_detection.2 c8state defaultNodes rfl (Or.inl rfl)

/-- C10: `applyAlignmentSnap` modifies at most the indexed node's
`handleIn`: lengths and all other nodes are unchanged, and the indexed
node's `mainPoint`, `handleOut` and `alignment` are unchanged; for index 0,
the last index (or beyond), or `Free` alignment it changes nothing at all;
for an interior `Aligned`/`Mirrored` node it rewrites exactly `handleIn` to
the clamped snap target computed from the current `handleOut` direction; and
the state-level call leaves every non-active channel untouched. -/
theorem c10_snap_frame :
    (∀ (sq : ℚ → ℚ) (nodes : List CurveNode) (idx : Nat),
      (applyAlignmentSnap sq nodes idx).length = nodes.length ∧
      (∀ j, j ≠ idx →
        (applyAlignmentSnap sq nodes idx).getD j dNode = nodes.getD j dNode) ∧
      ((applyAlignmentSnap sq nodes idx).getD idx dNode).mainPoint
        = (nodes.getD idx dNode).mainPoint ∧
      ((applyAlignmentSnap sq nodes idx).getD idx dNode).handleOut
        = (nodes.getD idx dNode).handleOut ∧
      ((applyAlignmentSnap sq nodes idx).getD idx dNode).alignment
        = (nodes.getD idx dNode).alignment) ∧
    (∀ (sq : ℚ → ℚ) (nodes : List CurveNode) (idx : Nat),
      idx = 0 ∨ idx + 1 ≥ nodes.length ∨
        (nodes.getD idx dNode).alignment = HandleAlignment.Free →
      applyAlignmentSnap sq nodes idx = nodes) ∧
    (∀ (sq : ℚ → ℚ) (nodes : List CurveNode) (idx : Nat),
      ¬ (idx = 0 ∨ idx + 1 ≥ nodes.length) →
      ((nodes.getD idx dNode).alignment = HandleAlignment.Aligned ∨
        (nodes.getD idx dNode).alignment = HandleAlignment.Mirrored) →
      applyAlignmentSnap sq nodes idx
        = nodes.set idx { nodes.getD idx dNode with
            handleIn := clampPt (snapInTarget sq (nodes.getD idx dNode)) }) ∧
    (∀ (sq : ℚ → ℚ) (s : WidgetState) (idx : Nat) (ch : ActiveChannel),
      ch ≠ s.activeChannel →
      (applyAlignmentSnapState sq s idx).channels.get ch = s.channels.get ch) := by
  refine ⟨?_, ?_, ?_, ?_⟩
  · intro sq nodes idx
    unfold applyAlignmentSnap
    split
    · exact ⟨rfl, fun j _ => rfl, rfl, rfl, rfl⟩
    · rename_i hguard
      have hlt : idx < nodes.length := by
        rcases not_or.mp hguard with ⟨_, h2⟩
        omega
      dsimp only
      split
      · refine ⟨by simp, fun j hj => getD_set_ne _ _ _ _ _ (fun hc => hj hc.symm), ?_, ?_, ?_⟩
        all_goals rw [getD_set_self _ _ _ _ hlt]
      · exact ⟨rfl, fun j _ => rfl, rfl, rfl, rfl⟩
  · intro sq nodes idx h
    unfold applyAlignmentSnap
    by_cases hg : idx = 0 ∨ idx + 1 ≥ nodes.length
    · rw [if_pos hg]
    · rw [if_neg hg]
      have hfree : (nodes.getD idx dNode).alignment = HandleAlignment.Free := by
        rcases h with h | h | h
        · exact absurd (Or.inl h) hg
        · exact absurd (Or.inr h) hg
        · exact h
      rw [if_neg (by rw [hfree]; rintro (h | h) <;> cases h)]
  · intro sq nodes idx hg hal
    unfold applyAlignmentSnap
    rw [if_neg hg, if_pos hal]
  · intro sq s idx ch hne
    unfold applyAlignmentSnapState
    cases hm : s.channels.get s.activeChannel with
    | none => rfl
    | some nodes =>
      dsimp only
      exact ChannelMap.get_set_ne _ _ _ _ (Ne.symm hne)

/-- Witness for C10 at concrete inputs: snapping index 0 of the default
channel is an identity, and snapping the interior `Aligned` node of the
three-node channel `c1nodes3` rewrites exactly its `handleIn`. -/
theorem c10_snap_frame_witness :
    applyAlignmentSnap sqZero defaultNodes 0 = defaultNodes ∧
    applyAlignmentSnap sqZero c1nodes3 1
      = c1nodes3.set 1 { c1nodes3.getD 1 dNode with
          handleIn := clampPt (snapInTarget sqZero (c1nodes3.getD 1 dNode)) } := by
  constructor
  · exact c10_snap_frame.2.1 sqZero defaultNodes 0 (Or.inl rfl)
  · exact c10_snap_frame.2.2.1 sqZero c1nodes3 1 (by decide)
      (Or.inl (by with_unfolding_all decide))

/-! ## Real-valued embedding of the opposite-handle constraint

`CurveWidget::mouseMoveEvent` lines 782-807 take square roots (`qSqrt`), so
the geometric claim about them is settled over `ℝ` with the exact
`Real.sqrt`; the rational state machine above threads the same code through
the abstract `sq` parameter instead. -/

/-- A 2-D point with real coordinates. -/
structure PtR where
  x : ℝ
  y : ℝ

theorem ptrEqOfCoords {a b : PtR} (hx : a.x = b.x) (hy : a.y = b.y) : a = b := by
  cases a; cases b; cases hx; cases hy; rfl

/-- Clamp a real into [0,1]. -/
noncomputable def clamp01R (v : ℝ) : ℝ := max 0 (min 1 v)

/-- Clamp both coordinates of a real point into [0,1]. -/
noncomputable def clampPtR (p : PtR) : PtR := ⟨clamp01R p.x, clamp01R p.y⟩

/-- Squared distance between two real points, written as the code's
`QPointF::dotProduct(v, v)` with `v = p - q`. -/
def normSqR (p q : PtR) : ℝ :=
  (p.x - q.x) * (p.x - q.x) + (p.y - q.y) * (p.y - q.y)

/-- Distance between two real points. -/
noncomputable def distR (p q : PtR) : ℝ := Real.sqrt (normSqR p q)

/-- The opposite-handle constraint of `CurveWidget::mouseMoveEvent`
(lines 782-807) over `ℝ`: with `vecMoved = moved - mainPt` and
`lenMovedSq = dot(vecMoved, vecMoved) = normSqR moved mainPt`, if
`lenMovedSq < 1e-12` the opposite handle goes to the anchor; otherwise it
goes along `normDirOpposite = -vecMoved / sqrt lenMovedSq`, scaled by the
opposite handle's previous distance from the anchor for `Aligned` and by
`sqrt lenMovedSq` for `Mirrored`; the result is clamped into the unit
square. -/
noncomputable def constrainOppositeR (align : HandleAlignment)
    (mainPt moved oppOld : PtR) : PtR :=
  clampPtR
    (if normSqR moved mainPt < 1e-12 then mainPt
     else if align = HandleAlignment.Aligned then
       ⟨mainPt.x + -(moved.x - mainPt.x) / Real.sqrt (normSqR moved mainPt)
          * Real.sqrt (normSqR oppOld mainPt),
        mainPt.y + -(moved.y - mainPt.y) / Real.sqrt (normSqR moved mainPt)
          * Real.sqrt (normSqR oppOld mainPt)⟩
     else
       ⟨mainPt.x + -(moved.x - mainPt.x) / Real.sqrt (normSqR moved mainPt)
          * Real.sqrt (normSqR moved mainPt),
        mainPt.y + -(moved.y - mainPt.y) / Real.sqrt (normSqR moved mainPt)
          * Real.sqrt (normSqR moved mainPt)⟩)

/-- Distance of an anchor to the anchor displaced by `c` times a vector. -/
theorem distR_scaled (mainPt : PtR) (vx vy c : ℝ) (hc : 0 ≤ c) :
    distR ⟨mainPt.x + -vx * c, mainPt.y + -vy * c⟩ mainPt
      = c * Real.sqrt (vx * vx + vy * vy) := by
  unfold distR normSqR
  have h : (mainPt.x + -vx * c - mainPt.x) * (mainPt.x + -vx * c - mainPt.x) +
      (mainPt.y + -vy * c - mainPt.y) * (mainPt.y + -vy * c - mainPt.y)
      = c ^ 2 * (vx * vx + vy * vy) := by ring
  rw [h, Real.sqrt_mul (sq_nonneg c), Real.sqrt_sq_eq_abs, abs_of_nonneg hc]

/-- C5: for a non-`Free` node, the opposite-handle constraint behaves as
claimed: if the moved handle coincides with the anchor (squared distance
below `1e-12`) the opposite handle becomes the (clamped) anchor - exactly
the anchor whenever the anchor lies in the unit square; otherwise the
computed pre-clamp position lies on the ray opposite the moved handle's
direction from the anchor, at the opposite handle's previous distance for
`Aligned` and at the moved handle's distance for `Mirrored`, and the stored
result is that position clamped into [0,1] x [0,1]. -/
theorem c5_alignment_constraint (align : HandleAlignment)
    (mainPt moved oppOld : PtR) (hA : align ≠ HandleAlignment.Free) :
    (normSqR moved mainPt < 1e-12 →
      constrainOppositeR align mainPt moved oppOld = clampPtR mainPt ∧
      (0 ≤ mainPt.x → mainPt.x ≤ 1 → 0 ≤ mainPt.y → mainPt.y ≤ 1 →
        constrainOppositeR align mainPt moved oppOld = mainPt)) ∧
    (1e-12 ≤ normSqR moved mainPt →
      ∃ p : PtR, constrainOppositeR align mainPt moved oppOld = clampPtR p ∧
        (∃ c : ℝ, 0 ≤ c ∧ p.x - mainPt.x = c * (mainPt.x - moved.x) ∧
          p.y - mainPt.y = c * (mainPt.y - moved.y)) ∧
        distR p mainPt = (if align = HandleAlignment.Aligned
          then distR oppOld mainPt else distR moved mainPt)) := by
  constructor
  · intro hsmall
    have heq : constrainOppositeR align mainPt moved oppOld = clampPtR mainPt := by
      unfold constrainOppositeR
      rw [if_pos hsmall]
    refine ⟨heq, fun hx0 hx1 hy0 hy1 => ?_⟩
    rw [heq]
    apply ptrEqOfCoords <;>
      simp only [clampPtR, clamp01R] <;>
      rw [min_eq_right (by assumption), max_eq_right (by assumption)]
  · intro hbig
    have hpos : 0 < normSqR moved mainPt := by
      calc (0 : ℝ) < 1e-12 := by norm_num
        _ ≤ normSqR moved mainPt := hbig
    have hlenpos : 0 < Real.sqrt (normSqR moved mainPt) := Real.sqrt_pos.mpr hpos
    have hlenne : Real.sqrt (normSqR moved mainPt) ≠ 0 := ne_of_gt hlenpos
    by_cases hal : align = HandleAlignment.Aligned
    · refine ⟨⟨mainPt.x + -(moved.x - mainPt.x) / Real.sqrt (normSqR moved mainPt)
          * Real.sqrt (normSqR oppOld mainPt),
        mainPt.y + -(moved.y - mainPt.y) / Real.sqrt (normSqR moved mainPt)
          * Real.sqrt (normSqR oppOld mainPt)⟩, ?_, ?_, ?_⟩
      · unfold constrainOppositeR
        rw [if_neg (not_lt.mpr hbig), if_pos hal]
      · exact ⟨Real.sqrt (normSqR oppOld mainPt) / Real.sqrt (normSqR moved mainPt),
          div_nonneg (Real.sqrt_nonneg _) (Real.sqrt_nonneg _), by ring, by ring⟩
      · rw [if_pos hal]
        have hre : (⟨mainPt.x + -(moved.x - mainPt.x) / Real.sqrt (normSqR moved mainPt)
              * Real.sqrt (normSqR oppOld mainPt),
            mainPt.y + -(moved.y - mainPt.y) / Real.sqrt (normSqR moved mainPt)
              * Real.sqrt (normSqR oppOld mainPt)⟩ : PtR)
            = ⟨mainPt.x + -(moved.x - mainPt.x)
                * (Real.sqrt (normSqR oppOld mainPt) / Real.sqrt (normSqR moved mainPt)),
               mainPt.y + -(moved.y - mainPt.y)
                * (Real.sqrt (normSqR oppOld mainPt) / Real.sqrt (normSqR moved mainPt))⟩ := by
          apply ptrEqOfCoords <;> dsimp only <;> ring
        rw [hre, distR_scaled mainPt (moved.x - mainPt.x) (moved.y - mainPt.y) _
          (div_nonneg (Real.sqrt_nonneg _) (Real.sqrt_nonneg _))]
        have hsq : Real.sqrt ((moved.x - mainPt.x) * (moved.x - mainPt.x) +
            (moved.y - mainPt.y) * (moved.y - mainPt.y))
            = Real.sqrt (normSqR moved mainPt) := rfl
        rw [hsq, div_mul_cancel₀ _ hlenne]
        rfl
    · refine ⟨⟨mainPt.x + -(moved.x - mainPt.x) / Real.sqrt (normSqR moved mainPt)
          * Real.sqrt (normSqR moved mainPt),
        mainPt.y + -(moved.y - mainPt.y) / Real.sqrt (normSqR moved mainPt)
          * Real.sqrt (normSqR moved mainPt)⟩, ?_, ?_, ?_⟩
      · unfold constrainOppositeR
        rw [if_neg (not_lt.mpr hbig), if_neg hal]
      · refine ⟨1, by norm_num, ?_, ?_⟩ <;> dsimp only <;>
          rw [div_mul_cancel₀ _ hlenne] <;> ring
      · rw [if_neg hal]
        have hre : (⟨mainPt.x + -(moved.x - mainPt.x) / Real.sqrt (normSqR moved mainPt)
              * Real.sqrt (normSqR moved mainPt),
            mainPt.y + -(moved.y - mainPt.y) / Real.sqrt (normSqR moved mainPt)
              * Real.sqrt (normSqR moved mainPt)⟩ : PtR)
            = ⟨mainPt.x + -(moved.x - mainPt.x) * 1,
               mainPt.y + -(moved.y - mainPt.y) * 1⟩ := by
          apply ptrEqOfCoords <;> dsimp only <;> rw [div_mul_cancel₀ _ hlenne] <;> ring
        rw [hre, distR_scaled mainPt (moved.x - mainPt.x) (moved.y - mainPt.y) 1 (by norm_num)]
        rw [one_mul]
        rfl

/-- Witness for C5 at a concrete input: a `Mirrored` constraint with anchor
(1/2, 1/2) and the moved handle at (4/5, 9/10), whose offset has squared
length 1/4. -/
theorem c5_alignment_constraint_witness :
    (HandleAlignment.Mirrored ≠ HandleAlignment.Free) ∧
    ((1e-12 : ℝ) ≤ normSqR ⟨4/5, 9/10⟩ ⟨1/2, 1/2⟩) ∧
    (∃ p : PtR,
      constrainOppositeR HandleAlignment.Mirrored ⟨1/2, 1/2⟩ ⟨4/5, 9/10⟩ ⟨0, 0⟩
        = clampPtR p ∧
      (∃ c : ℝ, 0 ≤ c ∧ p.x - (1/2 : ℝ) = c * ((1/2 : ℝ) - 4/5) ∧
        p.y - (1/2 : ℝ) = c * ((1/2 : ℝ) - 9/10)) ∧
      distR p ⟨1/2, 1/2⟩ = (if HandleAlignment.Mirrored = HandleAlignment.Aligned
        then distR ⟨0, 0⟩ ⟨1/2, 1/2⟩ else distR ⟨4/5, 9/10⟩ ⟨1/2, 1/2⟩)) := by
  refine ⟨by decide, by norm_num [normSqR], ?_⟩
  exact (c5_alignment_constraint HandleAlignment.Mirrored ⟨1/2, 1/2⟩ ⟨4/5, 9/10⟩
    ⟨0, 0⟩ (by decide)).2 (by norm_num [normSqR])

end CurveMaker
